import Mathlib

/-!
# log-trace-testing: message dispatch, field enrichment and log/trace correlation

A shallow embedding of `pkg/messaging` (request_providers.go, messages.go,
processor.go), `pkg/db/repository.go` and `loghook.go`, followed by the
properties proved about it.

Go maps are association lists read with `Map.get` and written with `Map.set`
(overwrite if the key is present, insert otherwise); the iteration order of a Go
map is unspecified, so two maps are the same mapping when `Map.get` agrees on
every key.
-/

namespace LogTrace

/-! ## Maps -/

/-- A Go `map[string]β`. -/
abbrev Map (β : Type) := List (String × β)

/-- Reading `m[k]`, with `none` for a key that is not stored. -/
def Map.get {β : Type} : Map β → String → Option β
  | [], _ => none
  | (k', v) :: t, k => if k' = k then some v else Map.get t k

/-- The assignment `m[k] = v`. -/
def Map.set {β : Type} : Map β → String → β → Map β
  | [], k, v => [(k, v)]
  | (k', v') :: t, k, v => if k' = k then (k, v) :: t else (k', v') :: Map.set t k v

/-- The keys stored in a map. -/
def Map.keys {β : Type} (m : Map β) : List String := m.map Prod.fst

/-! ## NATS messages -/

/-- The type `nats.Header`, a `map[string][]string`.  A value `[]` stands for a nil
slice; the NATS client only ever stores non-empty slices (its header parser and
`Add` append to the slice, `Set` stores a singleton). -/
abbrev Header := Map (List String)

/-- The type `nats.Msg`, with the fields this program reads.  `Header` is `none`
for a message delivered without headers (a nil map). -/
structure Msg where
  Subject : String
  Data : String
  Header : Option Header
  deriving DecidableEq, Repr

/-- The method `nats.Header.Get`: the first value stored under `key`,
case-sensitive; the empty string for a nil header, a missing key or a nil
slice. -/
def Header.Get (h : Option Header) (key : String) : String :=
  match h with
  | none => ""
  | some m =>
    match Map.get m key with
    | some (v :: _) => v
    | _ => ""

/-! ## Log fields -/

/-- The values this program stores in `logrus.Fields` (a `map[string]interface{}`). -/
inductive Value where
  | str (s : String)
  | header (h : Option Header)
  | strs (l : List String)
  | error (e : String)
  deriving DecidableEq, Repr

/-- The type `logrus.Fields`. -/
abbrev Fields := Map Value

/-! ## request_providers.go -/

/-- Embeds `RequestIdProvider.get`; `newString` is the value `uuid.NewString()` returns
for this call. -/
def RequestIdProvider.get (newString : String) : Map String :=
  [("requestId", newString)]

/-- Embeds `SubjectNameProvider.get`. -/
def SubjectNameProvider.get (msg : Msg) : Map String :=
  [("subject", msg.Subject)]

/-- Embeds `strconv.FormatBool`. -/
def FormatBool (b : Bool) : String := if b then "true" else "false"

/-- Embeds `KarateTestIdProvider.get`. -/
def KarateTestIdProvider.get (msg : Msg) : Map String :=
  let trace : Option (Map String) :=
    if msg.Header ≠ none then
      let testId := Header.Get msg.Header "karate-test-id"
      if testId ≠ "" then
        some [("karate-test-id", testId), ("is-integration-test", FormatBool true)]
      else none
    else none
  match trace with
  | none => [("is-integration-test", FormatBool false)]
  | some trace => trace

/-- The loop body `for a, field := range provider.get() { fields[a] = field }`. -/
def copyInto (fields : Fields) (provided : Map String) : Fields :=
  provided.foldl (fun fields p => Map.set fields p.1 (Value.str p.2)) fields

/-- Embeds `RequestFieldsToLogProvider.get`: the providers are, in this order, the
subject-name provider, the request-id provider and the karate-test-id provider
(the trace-id provider is commented out in the source). -/
def RequestFieldsToLogProvider.get (newString : String) (msg : Msg) : Fields :=
  let providers : List (Map String) :=
    [SubjectNameProvider.get msg, RequestIdProvider.get newString, KarateTestIdProvider.get msg]
  providers.foldl copyInto []

/-- The merge as the specification words it, for comparison with
`RequestFieldsToLogProvider.get`: the value of a key in the merge of the
providers' outputs is the value given by the last provider, in the order of
composition, whose output has the key. -/
def specMerge (outputs : List (Map String)) (k : String) : Option String :=
  outputs.reverse.findSome? (fun output => Map.get output k)

/-- The Field Enrichment Pipeline as the specification declares it: request-id
provider, subject-name provider, integration-test correlator. -/
def specPipeline (newString : String) (msg : Msg) (k : String) : Option String :=
  specMerge [RequestIdProvider.get newString, SubjectNameProvider.get msg,
    KarateTestIdProvider.get msg] k

/-! ## OpenTelemetry: span contexts, spans and the tracer -/

/-- One hexadecimal digit, lower case. -/
def hexDigit (n : Nat) : Char :=
  "0123456789abcdef".data.getD (n % 16) '0'

/-- The `width` low hexadecimal digits of `n`, most significant first. -/
def hexDigits : Nat → Nat → List Char
  | 0, _ => []
  | width + 1, n => hexDigits width (n / 16) ++ [hexDigit n]

/-- Embeds `trace.TraceID.String`: the 16 bytes of the id in hexadecimal. -/
def TraceID.String (id : Nat) : String := String.mk (hexDigits 32 id)

/-- Embeds `trace.SpanID.String`: the 8 bytes of the id in hexadecimal. -/
def SpanID.String (id : Nat) : String := String.mk (hexDigits 16 id)

/-- The type `trace.SpanContext`; the ids are the numbers their bytes spell, so
the all-zero (unset) id is `0`. -/
structure SpanContext where
  TraceID : Nat
  SpanID : Nat
  TraceFlags : Nat
  TraceState : String
  Remote : Bool
  deriving DecidableEq, Repr

/-- The zero value `trace.SpanContext{}`. -/
def SpanContext.empty : SpanContext :=
  { TraceID := 0, SpanID := 0, TraceFlags := 0, TraceState := "", Remote := false }

/-- Embeds `SpanContext.HasTraceID`. -/
def SpanContext.HasTraceID (sc : SpanContext) : Bool := sc.TraceID != 0

/-- Embeds `SpanContext.HasSpanID`. -/
def SpanContext.HasSpanID (sc : SpanContext) : Bool := sc.SpanID != 0

/-- Embeds `SpanContext.IsValid`. -/
def SpanContext.IsValid (sc : SpanContext) : Bool := sc.HasTraceID && sc.HasSpanID

/-- The type `trace.SpanKind`. -/
inductive SpanKind where
  | Unspecified | Internal | Server | Client | Producer | Consumer
  deriving DecidableEq, Repr

/-- Embeds `trace.ValidateSpanKind`: an unspecified kind becomes internal. -/
def ValidateSpanKind : SpanKind → SpanKind
  | .Unspecified => .Internal
  | k => k

/-- The type `codes.Code`. -/
inductive Code where
  | Unset | Error | Ok
  deriving DecidableEq, Repr

/-- The numeric value of a status code: Unset is 0, Error is 1, Ok is 2. -/
def Code.toNat : Code → Nat
  | .Unset => 0
  | .Error => 1
  | .Ok => 2

/-- The status of a span. -/
structure Status where
  Code : Code
  Description : String
  deriving DecidableEq, Repr

/-- An event added to a span, with its attributes. -/
structure SpanEvent where
  Name : String
  Attributes : List (String × String)
  deriving DecidableEq, Repr

/-- The state of a span started by the SDK tracer (`recordingSpan`). -/
structure Span where
  Name : String
  SpanKind : SpanKind
  Parent : SpanContext
  SpanContext : SpanContext
  Attributes : List (String × String)
  Events : List SpanEvent
  Status : Status
  Ended : Bool
  deriving DecidableEq, Repr

/-- Embeds `recordingSpan.IsRecording`: true until the span is ended. -/
def Span.IsRecording (s : Span) : Bool := !s.Ended

/-- Embeds `recordingSpan.AddEvent`. -/
def Span.AddEvent (s : Span) (name : String) (attrs : List (String × String)) : Span :=
  if !s.IsRecording then s
  else { s with Events := s.Events ++ [{ Name := name, Attributes := attrs }] }

/-- Embeds `recordingSpan.SetStatus`: ignored once the span is ended or when the status
already has a higher code; the description is kept for `codes.Error` only. -/
def Span.SetStatus (s : Span) (code : Code) (description : String) : Span :=
  if !s.IsRecording then s
  else if s.Status.Code.toNat > code.toNat then s
  else { s with Status := { Code := code,
                            Description := if code = Code.Error then description else "" } }

/-- Embeds `recordingSpan.End`: a second call does nothing. -/
def Span.End (s : Span) : Span :=
  if !s.IsRecording then s else { s with Ended := true }

/-- A value of the interface `trace.Span`: the no-op span, a non-recording span
wrapping a span context (what the propagator puts in a context), or the `id`-th
span started by the tracer, whose state is in the span store. -/
inductive SpanRef where
  | noop
  | nonRecording (sc : SpanContext)
  | recording (id : Nat)
  deriving DecidableEq, Repr

/-- A `context.Context`, as far as this program uses it: the current span, if
one was stored. -/
structure Context where
  currentSpan : Option SpanRef
  deriving DecidableEq, Repr

/-- Embeds `context.Background()`. -/
def Context.Background : Context := { currentSpan := none }

/-- Embeds `trace.SpanFromContext`. -/
def SpanFromContext (ctx : Context) : SpanRef :=
  match ctx.currentSpan with
  | some span => span
  | none => SpanRef.noop

/-- Embeds `trace.ContextWithSpan`. -/
def ContextWithSpan (_parent : Context) (span : SpanRef) : Context :=
  { currentSpan := some span }

/-- Embeds `trace.ContextWithSpanContext`. -/
def ContextWithSpanContext (parent : Context) (sc : SpanContext) : Context :=
  ContextWithSpan parent (SpanRef.nonRecording sc)

/-- Embeds `trace.ContextWithRemoteSpanContext`. -/
def ContextWithRemoteSpanContext (parent : Context) (sc : SpanContext) : Context :=
  ContextWithSpanContext parent { sc with Remote := true }

/-- Embeds `Span.SpanContext` for a span value, given the span store. -/
def SpanRef.SpanContext (span : SpanRef) (spans : List Span) : SpanContext :=
  match span with
  | .noop => SpanContext.empty
  | .nonRecording sc => sc
  | .recording id =>
    match spans[id]? with
    | some s => s.SpanContext
    | none => SpanContext.empty

/-- Embeds `Span.IsRecording` for a span value. -/
def SpanRef.IsRecording (span : SpanRef) (spans : List Span) : Bool :=
  match span with
  | .recording id =>
    match spans[id]? with
    | some s => s.IsRecording
    | none => false
  | _ => false

/-- Applying a method of `recordingSpan` to the span a value refers to; the
no-op and non-recording spans ignore every call. -/
def SpanRef.update (span : SpanRef) (f : Span → Span) (spans : List Span) : List Span :=
  match span with
  | .recording id =>
    match spans[id]? with
    | some s => spans.set id (f s)
    | none => spans
  | _ => spans

/-- Embeds `Span.AddEvent` for a span value. -/
def SpanRef.AddEvent (span : SpanRef) (name : String) (attrs : List (String × String))
    (spans : List Span) : List Span :=
  span.update (fun s => s.AddEvent name attrs) spans

/-- Embeds `Span.SetStatus` for a span value. -/
def SpanRef.SetStatus (span : SpanRef) (code : Code) (description : String)
    (spans : List Span) : List Span :=
  span.update (fun s => s.SetStatus code description) spans

/-- Embeds `ReadOnlySpan.Status` for a span value: the status of the span it refers to
(unset for the no-op and non-recording spans, which keep none). -/
def SpanRef.Status (span : SpanRef) (spans : List Span) : Status :=
  match span with
  | .recording id =>
    match spans[id]? with
    | some s => s.Status
    | none => { Code := Code.Unset, Description := "" }
  | _ => { Code := Code.Unset, Description := "" }

/-- Embeds `trace.SpanContextFromContext`. -/
def SpanContextFromContext (ctx : Context) (spans : List Span) : SpanContext :=
  (SpanFromContext ctx).SpanContext spans

/-! ## logrus entries and the hook of loghook.go -/

/-- The level panic of logrus, as the number of `logrus.Level`; a smaller number
is a more severe level. -/
def PanicLevel : Nat := 0

/-- The level fatal. -/
def FatalLevel : Nat := 1

/-- The level error. -/
def ErrorLevel : Nat := 2

/-- The level warning. -/
def WarnLevel : Nat := 3

/-- The level info. -/
def InfoLevel : Nat := 4

/-- The level debug. -/
def DebugLevel : Nat := 5

/-- The level trace. -/
def TraceLevel : Nat := 6

/-- Embeds `logrus.Level.String`. -/
def Level.String (level : Nat) : String :=
  match level with
  | 0 => "panic"
  | 1 => "fatal"
  | 2 => "error"
  | 3 => "warning"
  | 4 => "info"
  | 5 => "debug"
  | 6 => "trace"
  | _ => "unknown"

/-- The type `logrus.Entry`: the fields, the context given with `WithContext`
(`none` for a nil context), and, once logged, the level and the message. -/
structure Entry where
  Data : Fields
  Context : Option Context
  Level : Nat
  Message : String
  deriving DecidableEq, Repr

/-- Embeds `logrusTraceHook.Fire`.  The hook changes the fields of the entry and the
span the entry's context carries; the error it returns is always nil. -/
def logrusTraceHook.Fire (entry : Entry) (spans : List Span) : Entry × List Span :=
  match entry.Context with
  | none => (entry, spans)
  | some loggerCtx =>
    let span := SpanFromContext loggerCtx
    if !span.IsRecording spans then (entry, spans)
    else
      let spanContext := span.SpanContext spans
      let entry :=
        if spanContext.HasTraceID then
          { entry with
            Data := Map.set entry.Data "traceid" (Value.str (TraceID.String spanContext.TraceID)) }
        else entry
      let entry :=
        if spanContext.HasSpanID then
          { entry with
            Data := Map.set entry.Data "spanid" (Value.str (SpanID.String spanContext.SpanID)) }
        else entry
      let attrs : List (String × String) :=
        [("log.severity", Level.String entry.Level), ("log.message", entry.Message)]
      let spans := span.AddEvent "log" attrs spans
      let spans :=
        if entry.Level ≤ ErrorLevel then span.SetStatus Code.Error entry.Message spans
        else spans
      (entry, spans)

/-- The last record of a sequence whose level is error or more severe. -/
def lastError (entries : List Entry) : Option Entry :=
  (entries.filter (fun e => decide (e.Level ≤ ErrorLevel))).getLast?

/-- The hook fired on a sequence of log records in turn, as the logger does for
the records of one span. -/
def fireAll (entries : List Entry) (spans : List Span) : List Span :=
  entries.foldl (fun spans entry => (logrusTraceHook.Fire entry spans).2) spans

/-- Embeds `Entry.WithFields`: a new entry with the fields of the old one and the given
ones, a given field replacing an old one of the same name; the context is
kept. -/
def Entry.WithFields (entry : Entry) (fields : Fields) : Entry :=
  { Data := fields.foldl (fun data p => Map.set data p.1 p.2) entry.Data,
    Context := entry.Context, Level := 0, Message := "" }

/-- Embeds `Entry.WithField`. -/
def Entry.WithField (entry : Entry) (key : String) (value : Value) : Entry :=
  entry.WithFields [(key, value)]

/-- Embeds `Entry.WithError`: the error goes under the key `logrus.ErrorKey`. -/
def Entry.WithError (entry : Entry) (err : String) : Entry :=
  entry.WithField "error" (Value.error err)

/-- Embeds `Entry.WithContext`. -/
def Entry.WithContext (entry : Entry) (ctx : LogTrace.Context) : Entry :=
  { Data := entry.Data, Context := some ctx, Level := 0, Message := "" }

/-! ## The effects of message processing -/

/-- An invocation of a method of `db.Repository`. -/
inductive RepoCall where
  | Create (key info : String)
  | List (key : String)
  | Delete (key : String)
  deriving DecidableEq, Repr

/-- What message processing does that can be seen from outside: a record
written by the logger, a span started or ended, a method of the repository
entered. -/
inductive Event where
  | log (entry : Entry)
  | spanStart (id : Nat)
  | spanEnd (id : Nat)
  | call (c : RepoCall)
  deriving DecidableEq, Repr

/-- The state message processing runs in: the spans the tracer has started, the
`id`-th at position `id`, and the events so far, oldest first. -/
structure World where
  spans : List Span
  events : List Event
  deriving DecidableEq, Repr

/-- The level set by `initLogger` in main.go. -/
def loggerLevel : Nat := DebugLevel

/-- Embeds `Logger.IsLevelEnabled`. -/
def IsLevelEnabled (level : Nat) : Bool := decide (loggerLevel ≥ level)

/-- Embeds `Entry.Log`: if the level is enabled, a copy of the entry gets the level and
the message, the hook registered by `initLogger` fires on it, and it is
written. -/
def Entry.Log (entry : Entry) (level : Nat) (message : String) (w : World) : World :=
  if IsLevelEnabled level then
    let newEntry : Entry := { entry with Level := level, Message := message }
    let fired := logrusTraceHook.Fire newEntry w.spans
    { spans := fired.2, events := w.events ++ [Event.log fired.1] }
  else w

/-- Embeds `Entry.Info`. -/
def Entry.Info (entry : Entry) (message : String) (w : World) : World :=
  entry.Log InfoLevel message w

/-- Embeds `Entry.Error`. -/
def Entry.Error (entry : Entry) (message : String) (w : World) : World :=
  entry.Log ErrorLevel message w

/-- Embeds `Span.End` for a span value. -/
def SpanRef.End (span : SpanRef) (w : World) : World :=
  match span with
  | .recording id =>
    { spans := span.update Span.End w.spans, events := w.events ++ [Event.spanEnd id] }
  | _ => w

/-! ## messages.go -/

/-- The payload of a create message. -/
structure CreateMessage where
  Key : String
  Info : String
  deriving DecidableEq, Repr

/-- The payload of a list message. -/
structure ListMessage where
  Key : String
  deriving DecidableEq, Repr

/-- The payload of a delete message. -/
structure DeleteMessage where
  Key : String
  deriving DecidableEq, Repr

/-- The reading half of `propagation.TextMapCarrier`, which is all that
extraction uses. -/
structure TextMapCarrier where
  Get : String → String
  Keys : List String

/-- Embeds `NatsHeaderCarrier.Get`. -/
def NatsHeaderCarrier.Get (hc : Option Header) (key : String) : String :=
  Header.Get hc key

/-- Embeds `NatsHeaderCarrier.Keys`. -/
def NatsHeaderCarrier.Keys (hc : Option Header) : List String :=
  match hc with
  | none => []
  | some m => Map.keys m

/-- Embeds `nats.Header.Set`, the statement `h[key] = []string{value}`: the
entries of `key` become the single value; the header written to is the result.
Writing to a nil map panics, which is the error here. -/
def Header.Set (h : Option Header) (key value : String) : Except String Header :=
  match h with
  | none => .error "assignment to entry in nil map"
  | some m => .ok (Map.set m key [value])

/-- Embeds `NatsHeaderCarrier.Set`. -/
def NatsHeaderCarrier.Set (hc : Option Header) (key value : String) : Except String Header :=
  Header.Set hc key value

/-- The conversion `NatsHeaderCarrier(msg.Header)`, seen through the carrier
interface. -/
def NatsHeaderCarrier (hc : Option Header) : TextMapCarrier :=
  { Get := NatsHeaderCarrier.Get hc, Keys := NatsHeaderCarrier.Keys hc }

/-- The collaborators outside the repository, by the answers they give while one
message is processed. -/
structure Env where
  /-- The span context `propagation.TraceContext` reads from the "traceparent"
  and "tracestate" entries of a carrier; the empty span context if there is none
  or it is malformed. -/
  extract : TextMapCarrier → SpanContext
  /-- The id generator of the tracer provider: `NewIDs` for the span started
  `n`-th. -/
  NewIDs : Nat → Nat × Nat
  /-- The id generator of the tracer provider: `NewSpanID` for the span started
  `n`-th. -/
  NewSpanID : Nat → Nat
  /-- The value of `uuid.NewString()`. -/
  NewString : String
  /-- The error of `config.LoadDefaultConfig`, if it fails. -/
  LoadDefaultConfig : Option String
  /-- Embeds `json.Unmarshal` into a `CreateMessage`. -/
  UnmarshalCreate : String → Except String CreateMessage
  /-- Embeds `json.Unmarshal` into a `ListMessage`. -/
  UnmarshalList : String → Except String ListMessage
  /-- Embeds `json.Unmarshal` into a `DeleteMessage`. -/
  UnmarshalDelete : String → Except String DeleteMessage
  /-- The error of `PutItem` on a table, key and info, if it fails. -/
  PutItem : String → String → String → Option String
  /-- The error of building the key condition for a key, if it fails. -/
  Build : String → Option String
  /-- The outcomes of the `NextPage` calls the query paginator of a table and key
  allows, in order: the error of each, if it fails. -/
  NextPage : String → String → List (Option String)
  /-- The error of `DeleteItem` on a table and key, if it fails. -/
  DeleteItem : String → String → Option String

/-- Embeds `deserializeCreateMessage`. -/
def deserializeCreateMessage (env : Env) (msg : Msg) : Except String CreateMessage :=
  match env.UnmarshalCreate msg.Data with
  | .error err => .error err
  | .ok createMsg => .ok createMsg

/-- Embeds `deserializeListMessage`. -/
def deserializeListMessage (env : Env) (msg : Msg) : Except String ListMessage :=
  match env.UnmarshalList msg.Data with
  | .error err => .error err
  | .ok listMsg => .ok listMsg

/-- Embeds `deserializeDeleteMessage`. -/
def deserializeDeleteMessage (env : Env) (msg : Msg) : Except String DeleteMessage :=
  match env.UnmarshalDelete msg.Data with
  | .error err => .error err
  | .ok deleteMsg => .ok deleteMsg

/-! ## The tracer and the propagator set up in main.go -/

/-- The options of `Tracer.Start` this program passes. -/
structure SpanStartConfig where
  NewRoot : Bool := false
  SpanKind : SpanKind := SpanKind.Unspecified
  Attributes : List (String × String) := []
  deriving DecidableEq, Repr

/-- Embeds `Tracer.Start` of the SDK, with the sampler `AlwaysSample` of main.go: the
parent is the span context of `ctx`, or none when a new root is asked for; a
parent with a trace id passes it on, otherwise new ids are generated; the new
span is recording and is the current span of the context returned. -/
def Tracer.Start (env : Env) (ctx : Context) (name : String) (config : SpanStartConfig)
    (w : World) : (Context × SpanRef) × World :=
  let psc := if config.NewRoot then SpanContext.empty else SpanContextFromContext ctx w.spans
  let ctx := if config.NewRoot then ContextWithSpanContext ctx SpanContext.empty else ctx
  let id := w.spans.length
  let ids : Nat × Nat :=
    if !psc.HasTraceID then env.NewIDs id else (psc.TraceID, env.NewSpanID id)
  let sc : SpanContext :=
    { TraceID := ids.1, SpanID := ids.2, TraceFlags := psc.TraceFlags ||| 1,
      TraceState := psc.TraceState, Remote := false }
  let span : Span :=
    { Name := name, SpanKind := ValidateSpanKind config.SpanKind, Parent := psc,
      SpanContext := sc, Attributes := config.Attributes, Events := [],
      Status := { Code := Code.Unset, Description := "" }, Ended := false }
  ((ContextWithSpan ctx (SpanRef.recording id), SpanRef.recording id),
   { spans := w.spans ++ [span], events := w.events ++ [Event.spanStart id] })

/-- Embeds `Extract` of the propagator set in main.go (baggage, then trace context), as
far as the current span goes: a valid span context read from the carrier becomes
the remote span context of the context returned, otherwise the context is
returned as it is. -/
def Extract (env : Env) (ctx : Context) (carrier : TextMapCarrier) : Context :=
  let sc := env.extract carrier
  if !sc.IsValid then ctx else ContextWithRemoteSpanContext ctx sc

/-! ## pkg/db/repository.go -/

/-- The type `db.DynamoDbRepository`; the tracer and the client are those of the
environment. -/
structure DynamoDbRepository where
  context : Context
  logger : Entry
  tableName : String
  deriving DecidableEq, Repr

/-- Embeds `NewDynamoDbRepository`. -/
def NewDynamoDbRepository (env : Env) (context : Context) (log : Entry) (tableName : String)
    (w : World) : Except String DynamoDbRepository × World :=
  let logger := log.WithField "table_name" (Value.str tableName)
  let w := logger.Info "Building dynamodb client" w
  match env.LoadDefaultConfig with
  | some err =>
    let w := (logger.WithError err).Error "failed to AWS load config" w
    (.error err, w)
  | none =>
    let w := logger.Info "Dynamodb client build successful" w
    (.ok { context := context, logger := logger, tableName := tableName }, w)

/-- Embeds `DynamoDbRepository.aSubTask` called with `final` true.  The sleep of a
random number of seconds has no effect on the state. -/
def DynamoDbRepository.aSubTaskFinal (env : Env) (d : DynamoDbRepository) (tctx : Context)
    (taskName : String) (w : World) : World :=
  let started := Tracer.Start env tctx taskName {} w
  let ctx := started.1.1
  let span := started.1.2
  let w := started.2
  let logger := d.logger.WithContext ctx
  let w := logger.Info ("Starting doing task: " ++ taskName) w
  let w := logger.Info ("End doing task: " ++ taskName) w
  span.End w

/-- Embeds `DynamoDbRepository.aSubTask`: with `final` false the task runs one sub task
of itself, with `final` true. -/
def DynamoDbRepository.aSubTask (env : Env) (d : DynamoDbRepository) (tctx : Context)
    (taskName : String) (final : Bool) (w : World) : World :=
  let started := Tracer.Start env tctx taskName {} w
  let ctx := started.1.1
  let span := started.1.2
  let w := started.2
  let logger := d.logger.WithContext ctx
  let w := logger.Info ("Starting doing task: " ++ taskName) w
  let w := if !final then d.aSubTaskFinal env ctx ("... a sub task of " ++ taskName) w else w
  let w := logger.Info ("End doing task: " ++ taskName) w
  span.End w

/-- Embeds `DynamoDbRepository.Create`; the error returned is `none` for nil.
Entering the method is recorded as an event, before anything the method does. -/
def DynamoDbRepository.Create (env : Env) (d : DynamoDbRepository) (key info : String)
    (w : World) : Option String × World :=
  let w := { w with events := w.events ++ [Event.call (RepoCall.Create key info)] }
  let started := Tracer.Start env d.context "Create record"
    { Attributes := [("key", key), ("info", info)] } w
  let ctx := started.1.1
  let span := started.1.2
  let w := started.2
  let logger := (d.logger.WithContext ctx).WithFields
    [("key", Value.str key), ("info", Value.str key)]
  let w := logger.Info "Saving dynamodb record" w
  match env.PutItem d.tableName key info with
  | some err =>
    let w := (logger.WithError err).Error "failed to save dynamodb record" w
    (some err, span.End w)
  | none =>
    let w := logger.Info "Dynamodb record successfully created" w
    let w := d.aSubTask env ctx "After create record" false w
    (none, span.End w)

/-- The loop `for queryPaginator.HasMorePages()` of `List`, over the outcomes of
the `NextPage` calls: it stops at the first error, which it logs and returns. -/
def DynamoDbRepository.fetchPages (logger : Entry) :
    List (Option String) → World → Option String × World
  | [], w => (none, w)
  | none :: rest, w => DynamoDbRepository.fetchPages logger rest w
  | some err :: _, w =>
    (some err, (logger.WithError err).Error "failed to fetch dynamodb record" w)

/-- Embeds `DynamoDbRepository.List`; entering the method is recorded as an event. -/
def DynamoDbRepository.List (env : Env) (d : DynamoDbRepository) (key : String)
    (w : World) : Option String × World :=
  let w := { w with events := w.events ++ [Event.call (RepoCall.List key)] }
  let started := Tracer.Start env d.context "List records" { Attributes := [("key", key)] } w
  let ctx := started.1.1
  let span := started.1.2
  let w := started.2
  let logger := (d.logger.WithContext ctx).WithField "key" (Value.str key)
  let w := logger.Info "Starting dynamodb query" w
  match env.Build key with
  | some err =>
    let w := (logger.WithError err).Error "failed to build search expression" w
    (some err, span.End w)
  | none =>
    let w := logger.Info "Querying dynamodb" w
    let fetched := DynamoDbRepository.fetchPages logger (env.NextPage d.tableName key) w
    match fetched.1 with
    | some err => (some err, span.End fetched.2)
    | none =>
      let w := logger.Info "Finish querying dynamodb successfully" fetched.2
      let w := d.aSubTask env ctx "After list records" false w
      (none, span.End w)

/-- Embeds `DynamoDbRepository.Delete`; entering the method is recorded as an event. -/
def DynamoDbRepository.Delete (env : Env) (d : DynamoDbRepository) (key : String)
    (w : World) : Option String × World :=
  let w := { w with events := w.events ++ [Event.call (RepoCall.Delete key)] }
  let started := Tracer.Start env d.context "Delete record" { Attributes := [("key", key)] } w
  let ctx := started.1.1
  let span := started.1.2
  let w := started.2
  let logger := (d.logger.WithContext ctx).WithField "key" (Value.str key)
  let w := logger.Info "Deleting dynamodb record" w
  match env.DeleteItem d.tableName key with
  | some err =>
    let w := (logger.WithError err).Error "failed to delete dynamodb record" w
    (some err, span.End w)
  | none =>
    let w := logger.Info "Dynamodb record successfully deleted" w
    let w := d.aSubTask env ctx "After Delete record" false w
    (none, span.End w)

/-- The interface `db.Repository`. -/
structure Repository where
  Create : String → String → World → Option String × World
  List : String → World → Option String × World
  Delete : String → World → Option String × World

/-- A `DynamoDbRepository` as a `db.Repository`. -/
def DynamoDbRepository.toRepository (env : Env) (d : DynamoDbRepository) : Repository :=
  { Create := d.Create env, List := d.List env, Delete := d.Delete env }

/-! ## pkg/messaging/processor.go -/

/-- The subject of create messages. -/
def createSubject : String := "create"

/-- The subject of list messages. -/
def listSubject : String := "list"

/-- The subject of delete messages. -/
def deleteSubject : String := "delete"

/-- The table of the repository. -/
def tableName : String := "my-table"

/-- The type `NatsMessageProcessor`, with its logger; the tracer is that of the
environment. -/
structure NatsMessageProcessor where
  logger : Entry
  URL : String
  deriving DecidableEq, Repr

/-- Embeds `getOrCreateSpanForMessageProcessing`. -/
def getOrCreateSpanForMessageProcessing (env : Env) (logger : Entry) (context : Context)
    (msg : Msg) (name : String) (w : World) : (Context × SpanRef) × World :=
  let ctx := Extract env context (NatsHeaderCarrier msg.Header)
  let testSpan := SpanFromContext ctx
  if !(testSpan.SpanContext w.spans).IsValid then
    let w := (logger.WithContext context).Info "Trace not found, generating new one." w
    Tracer.Start env context name { NewRoot := true, SpanKind := SpanKind.Consumer } w
  else
    let started := Tracer.Start env ctx name { SpanKind := SpanKind.Consumer } w
    let ctx := started.1.1
    let span := started.1.2
    let w := started.2
    let w := (logger.WithContext context).Info
      ("Trace found with value: " ++ TraceID.String (span.SpanContext w.spans).TraceID ++
        ". reusing it") w
    ((ctx, span), w)

/-- Embeds `processCreateMessage`; the deferred log is written at each return. -/
def processCreateMessage (env : Env) (logger : Entry) (repository : Repository) (msg : Msg)
    (w : World) : World :=
  let w := logger.Info "Starting processing create record message" w
  match deserializeCreateMessage env msg with
  | .error err =>
    let w := (logger.WithError err).Error "Failed to deserialize message" w
    logger.Info "End processing create record message" w
  | .ok message =>
    let created := repository.Create message.Key message.Info w
    match created.1 with
    | some err =>
      let w := (logger.WithError err).Error "Failed to create record" created.2
      logger.Info "End processing create record message" w
    | none => logger.Info "End processing create record message" created.2

/-- Embeds `processListMessage`; the deferred log is written at each return. -/
def processListMessage (env : Env) (logger : Entry) (repository : Repository) (msg : Msg)
    (w : World) : World :=
  let w := logger.Info "Starting processing list records message" w
  match deserializeListMessage env msg with
  | .error err =>
    let w := (logger.WithError err).Error "Failed to deserialize message" w
    logger.Info "End processing list records message" w
  | .ok message =>
    let listed := repository.List message.Key w
    match listed.1 with
    | some err =>
      let w := (logger.WithError err).Error "Failed to list records " listed.2
      logger.Info "End processing list records message" w
    | none => logger.Info "End processing list records message" listed.2

/-- Embeds `processDeleteMessage`; the deferred log is written at each return. -/
def processDeleteMessage (env : Env) (logger : Entry) (repository : Repository) (msg : Msg)
    (w : World) : World :=
  let w := logger.Info "Starting processing delete message" w
  match deserializeDeleteMessage env msg with
  | .error err =>
    let w := (logger.WithError err).Error "Failed to deserialize message" w
    logger.Info "End processing delete message" w
  | .ok message =>
    let deleted := repository.Delete message.Key w
    match deleted.1 with
    | some err =>
      let w := (logger.WithError err).Error "Failed to delete record" deleted.2
      logger.Info "End processing delete message" w
    | none => logger.Info "End processing delete message" deleted.2

/-- The part of `messageHandler` between the two deferred calls and their
running: building the repository and the switch on the subject. -/
def messageHandler.body (env : Env) (ctx : Context) (requestLogger : Entry)
    (debugFields : Fields) (msg : Msg) (w : World) : World :=
  let built := NewDynamoDbRepository env ctx requestLogger tableName w
  match built.1 with
  | .error err => (requestLogger.WithError err).Error "Failed to create repository" built.2
  | .ok repository =>
    if msg.Subject = createSubject then
      processCreateMessage env requestLogger (repository.toRepository env) msg built.2
    else if msg.Subject = listSubject then
      processListMessage env requestLogger (repository.toRepository env) msg built.2
    else if msg.Subject = deleteSubject then
      processDeleteMessage env requestLogger (repository.toRepository env) msg built.2
    else
      (requestLogger.WithFields debugFields).Error
        "Unknown message subject. THIS SHOULD NEVER HAPPEN!" built.2

/-- Embeds `NatsMessageProcessor.messageHandler`.  The two deferred calls run when the
body returns, the one deferred last first: the log "Ending processing message",
then `span.End()`. -/
def NatsMessageProcessor.messageHandler (env : Env) (n : NatsMessageProcessor) (msg : Msg)
    (w : World) : World :=
  let logger := n.logger.WithFields (RequestFieldsToLogProvider.get env.NewString msg)
  let acquired :=
    getOrCreateSpanForMessageProcessing env logger Context.Background msg "Process message" w
  let ctx := acquired.1.1
  let span := acquired.1.2
  let w := acquired.2
  let requestLogger := logger.WithContext ctx
  let debugFields : Fields := [("headers", Value.header msg.Header), ("data", Value.str msg.Data)]
  let w := (requestLogger.WithFields debugFields).Info "Starting processing message" w
  let w := messageHandler.body env ctx requestLogger debugFields msg w
  let w := (requestLogger.WithFields debugFields).Info "Ending processing message" w
  span.End w

/-! ## Reading the events -/

/-- The records written, oldest first. -/
def logged (events : List Event) : List Entry :=
  events.filterMap (fun e => match e with | .log entry => some entry | _ => none)

/-- The records written at error level or above. -/
def errorsLogged (events : List Event) : List Entry :=
  (logged events).filter (fun entry => decide (entry.Level ≤ ErrorLevel))

/-- The methods of the repository entered, oldest first. -/
def calls (events : List Event) : List RepoCall :=
  events.filterMap (fun e => match e with | .call c => some c | _ => none)

/-- The ids of the spans started, oldest first. -/
def spansStarted (events : List Event) : List Nat :=
  events.filterMap (fun e => match e with | .spanStart id => some id | _ => none)

/-- The ids of the spans ended, oldest first, one for each call of `End`. -/
def spansEnded (events : List Event) : List Nat :=
  events.filterMap (fun e => match e with | .spanEnd id => some id | _ => none)

/-- How many times the span `id` was ended. -/
def timesEnded (id : Nat) (events : List Event) : Nat :=
  (spansEnded events).count id

/-- Between the states `w` and `w'`, only spans with an id of at least `base` were
ended. -/
def EndsFrom (base : Nat) (w w' : World) : Prop :=
  ∃ new, spansEnded w'.events = spansEnded w.events ++ new ∧ ∀ id ∈ new, base ≤ id

/-- The span `id` is in the store and has not been ended. -/
def IsOpen (id : Nat) (w : World) : Prop :=
  ∃ s, w.spans[id]? = some s ∧ s.Ended = false

/-- The level and the message of each record written, oldest first. -/
def messagesLogged (events : List Event) : List (Nat × String) :=
  (logged events).map (fun entry => (entry.Level, entry.Message))

/-! ## Sample values -/

/-- A span as the tracer starts it, with the given span context. -/
def sampleSpan (sc : SpanContext) : Span :=
  { Name := "Process message", SpanKind := SpanKind.Consumer, Parent := SpanContext.empty,
    SpanContext := sc, Attributes := [], Events := [],
    Status := { Code := Code.Unset, Description := "" }, Ended := false }

/-- A context whose current span is the first span of the store. -/
def sampleContext : Context := { currentSpan := some (SpanRef.recording 0) }

/-- A record logged with `sampleContext`. -/
def sampleEntry (level : Nat) (message : String) : Entry :=
  { Data := [("subject", Value.str "create")], Context := some sampleContext, Level := level,
    Message := message }

/-- Answers of the collaborators for one message: a carrier is read as carrying
a trace only for one "traceparent" value, the three bodies below decode, the
configuration loads and the database calls succeed. -/
def sampleEnv : Env :=
  { extract := fun carrier =>
      if carrier.Get "traceparent" = "00-000000000000000000000000000000ff-0000000000000010-01"
      then { TraceID := 255, SpanID := 16, TraceFlags := 1, TraceState := "", Remote := false }
      else SpanContext.empty,
    NewIDs := fun n => (1000 + n, 2000 + n),
    NewSpanID := fun n => 2000 + n,
    NewString := "0b0e3c1a-5a4f-4d0c-9d43-6d1f2c7a9e10",
    LoadDefaultConfig := none,
    UnmarshalCreate := fun data =>
      if data = "\x7b\"key\":\"a\",\"info\":\"x\"\x7d" then .ok { Key := "a", Info := "x" }
      else .error "unexpected end of JSON input",
    UnmarshalList := fun data =>
      if data = "\x7b\"key\":\"a\"\x7d" then .ok { Key := "a" }
      else .error "unexpected end of JSON input",
    UnmarshalDelete := fun data =>
      if data = "\x7b\"key\":\"a\"\x7d" then .ok { Key := "a" }
      else .error "unexpected end of JSON input",
    PutItem := fun _ _ _ => none,
    Build := fun _ => none,
    NextPage := fun _ _ => [none, none],
    DeleteItem := fun _ _ => none }

/-- The same answers, except that loading the configuration fails. -/
def failingEnv : Env :=
  { sampleEnv with LoadDefaultConfig := some "failed to load shared config" }

/-- A processor whose logger has the fields given in main.go and processor.go. -/
def sampleProcessor : NatsMessageProcessor :=
  { logger := { Data := [("application", Value.str "my-test-application"),
                         ("cluster", Value.str "localhost:4222")],
                Context := none, Level := 0, Message := "" },
    URL := "localhost:4222" }

/-- The state before the first message: no span, no event. -/
def emptyWorld : World := { spans := [], events := [] }

/-! ## Properties of the field providers -/

theorem karate_get_of_empty (msg : Msg) (h : Header.Get msg.Header "karate-test-id" = "") :
    KarateTestIdProvider.get msg = [("is-integration-test", "false")] := by
  unfold KarateTestIdProvider.get
  simp [h, FormatBool]

theorem karate_get_of_nonempty (msg : Msg) (h : Header.Get msg.Header "karate-test-id" ≠ "") :
    KarateTestIdProvider.get msg =
      [("karate-test-id", Header.Get msg.Header "karate-test-id"),
       ("is-integration-test", "true")] := by
  have hh : msg.Header ≠ none := by
    intro hn
    apply h
    simp [hn, Header.Get]
  unfold KarateTestIdProvider.get
  simp [h, hh, FormatBool]

/-- C8 (as stated, refuted): a message whose metadata contains the key
"karate-test-id" with an empty value does not get the mapping with the flag
"true"; the provider answers as if the key were absent. -/
theorem karate_present_empty_counterexample :
    ¬ (∀ (msg : Msg) (h : Header) (v : String) (rest : List String),
        msg.Header = some h → Map.get h "karate-test-id" = some (v :: rest) →
        ∀ k, Map.get (KarateTestIdProvider.get msg) k =
          Map.get [("karate-test-id", v), ("is-integration-test", "true")] k) := by
  intro hall
  have h := hall ⟨"create", "", some [("karate-test-id", [""])]⟩
    [("karate-test-id", [""])] "" [] rfl (by decide) "is-integration-test"
  revert h
  decide

/-- C8 (amended): `KarateTestIdProvider.get` returns exactly
`{"karate-test-id": v, "is-integration-test": "true"}` when the first value `v`
stored under "karate-test-id" in the message's metadata is not the empty string,
and exactly `{"is-integration-test": "false"}` when the message has no metadata,
the key is absent (or stored with no value), or that first value is empty. -/
theorem karate_get_spec (msg : Msg) :
    (∀ (h : Header) (v : String) (rest : List String),
        msg.Header = some h → Map.get h "karate-test-id" = some (v :: rest) → v ≠ "" →
        KarateTestIdProvider.get msg =
          [("karate-test-id", v), ("is-integration-test", "true")]) ∧
    (∀ (h : Header) (rest : List String),
        msg.Header = some h → Map.get h "karate-test-id" = some ("" :: rest) →
        KarateTestIdProvider.get msg = [("is-integration-test", "false")]) ∧
    (∀ (h : Header), msg.Header = some h →
        (Map.get h "karate-test-id" = none ∨ Map.get h "karate-test-id" = some []) →
        KarateTestIdProvider.get msg = [("is-integration-test", "false")]) ∧
    (msg.Header = none →
        KarateTestIdProvider.get msg = [("is-integration-test", "false")]) := by
  refine ⟨?_, ?_, ?_, ?_⟩
  · intro h v rest hh hg hv
    have hget : Header.Get msg.Header "karate-test-id" = v := by
      simp [Header.Get, hh, hg]
    have := karate_get_of_nonempty msg (by rw [hget]; exact hv)
    rw [hget] at this
    exact this
  · intro h rest hh hg
    exact karate_get_of_empty msg (by simp [Header.Get, hh, hg])
  · intro h hh hg
    rcases hg with hg | hg <;>
      exact karate_get_of_empty msg (by simp [Header.Get, hh, hg])
  · intro hh
    exact karate_get_of_empty msg (by simp [Header.Get, hh])

theorem karate_get_spec_witness :
    KarateTestIdProvider.get ⟨"create", "", some [("karate-test-id", ["t-1", "t-2"])]⟩ =
        [("karate-test-id", "t-1"), ("is-integration-test", "true")] ∧
    KarateTestIdProvider.get ⟨"create", "", some [("karate-test-id", [""])]⟩ =
        [("is-integration-test", "false")] ∧
    KarateTestIdProvider.get ⟨"create", "", some [("other", ["x"])]⟩ =
        [("is-integration-test", "false")] ∧
    KarateTestIdProvider.get ⟨"create", "", none⟩ = [("is-integration-test", "false")] :=
  ⟨(karate_get_spec _).1 [("karate-test-id", ["t-1", "t-2"])] "t-1" ["t-2"] rfl (by decide)
      (by decide),
   (karate_get_spec _).2.1 [("karate-test-id", [""])] [] rfl (by decide),
   (karate_get_spec _).2.2.1 [("other", ["x"])] rfl (Or.inl (by decide)),
   (karate_get_spec _).2.2.2 rfl⟩

/-- The fields built by `RequestFieldsToLogProvider.get`, by cases on what the
karate-test-id provider returns. -/
theorem fields_get_eq (newString : String) (msg : Msg) :
    (Header.Get msg.Header "karate-test-id" = "" ∧
      RequestFieldsToLogProvider.get newString msg =
        [("subject", Value.str msg.Subject), ("requestId", Value.str newString),
         ("is-integration-test", Value.str "false")]) ∨
    (Header.Get msg.Header "karate-test-id" ≠ "" ∧
      RequestFieldsToLogProvider.get newString msg =
        [("subject", Value.str msg.Subject), ("requestId", Value.str newString),
         ("karate-test-id", Value.str (Header.Get msg.Header "karate-test-id")),
         ("is-integration-test", Value.str "true")]) := by
  by_cases h : Header.Get msg.Header "karate-test-id" = ""
  · left
    refine ⟨h, ?_⟩
    simp [RequestFieldsToLogProvider.get, karate_get_of_empty msg h, copyInto,
      SubjectNameProvider.get, RequestIdProvider.get, Map.set]
  · right
    refine ⟨h, ?_⟩
    simp [RequestFieldsToLogProvider.get, karate_get_of_nonempty msg h, copyInto,
      SubjectNameProvider.get, RequestIdProvider.get, Map.set]

/-- C9: for every message and every generated request id, the mapping returned
by `RequestFieldsToLogProvider.get` is the merge of the outputs of the
request-id provider, the subject-name provider and the integration-test
correlator taken in that order, a later provider overwriting an earlier one on
the same key. -/
theorem fields_get_refines_spec (newString : String) (msg : Msg) (k : String) :
    Map.get (RequestFieldsToLogProvider.get newString msg) k =
      (specPipeline newString msg k).map Value.str := by
  rcases fields_get_eq newString msg with ⟨h, heq⟩ | ⟨h, heq⟩
  · rw [heq]
    simp only [specPipeline, specMerge, karate_get_of_empty msg h, SubjectNameProvider.get,
      RequestIdProvider.get, List.reverse_cons, List.reverse_nil, List.nil_append,
      List.cons_append, List.findSome?, Map.get]
    by_cases h1 : "is-integration-test" = k
    · subst h1; simp
    · by_cases h2 : "subject" = k
      · subst h2; simp
      · by_cases h3 : "requestId" = k
        · subst h3; simp
        · simp [h1, h2, h3]
  · rw [heq]
    simp only [specPipeline, specMerge, karate_get_of_nonempty msg h, SubjectNameProvider.get,
      RequestIdProvider.get, List.reverse_cons, List.reverse_nil, List.nil_append,
      List.cons_append, List.findSome?, Map.get]
    by_cases h0 : "karate-test-id" = k
    · subst h0; simp
    · by_cases h1 : "is-integration-test" = k
      · subst h1; simp
      · by_cases h2 : "subject" = k
        · subst h2; simp
        · by_cases h3 : "requestId" = k
          · subst h3; simp
          · simp [h0, h1, h2, h3]

/-- C10: two invocations of `RequestFieldsToLogProvider.get` on the same
message (with the request ids `u₁` and `u₂` generated for them) return mappings
with the same keys and the same value for every key other than "requestId", and
"subject" is the message's subject in both. -/
theorem fields_get_twice (msg : Msg) (u₁ u₂ : String) :
    Map.keys (RequestFieldsToLogProvider.get u₁ msg) =
      Map.keys (RequestFieldsToLogProvider.get u₂ msg) ∧
    (∀ k, k ≠ "requestId" →
      Map.get (RequestFieldsToLogProvider.get u₁ msg) k =
        Map.get (RequestFieldsToLogProvider.get u₂ msg) k) ∧
    Map.get (RequestFieldsToLogProvider.get u₁ msg) "subject" = some (Value.str msg.Subject) ∧
    Map.get (RequestFieldsToLogProvider.get u₂ msg) "subject" = some (Value.str msg.Subject) := by
  rcases fields_get_eq u₁ msg with ⟨h, h1⟩ | ⟨h, h1⟩ <;>
    rcases fields_get_eq u₂ msg with ⟨h', h2⟩ | ⟨h', h2⟩ <;>
    first
    | exact absurd h h'
    | exact absurd h' h
    | (rw [h1, h2]
       refine ⟨by simp [Map.keys], ?_, by simp [Map.get], by simp [Map.get]⟩
       intro k hk
       have hk' : ¬ "requestId" = k := fun e => hk e.symm
       simp [Map.get, hk'])

theorem fields_get_twice_witness :
    Map.get (RequestFieldsToLogProvider.get "id-1" ⟨"list", "", none⟩) "is-integration-test" =
      Map.get (RequestFieldsToLogProvider.get "id-2" ⟨"list", "", none⟩)
        "is-integration-test" :=
  (fields_get_twice ⟨"list", "", none⟩ "id-1" "id-2").2.1 "is-integration-test" (by decide)

/-! ## Properties of the hook -/

theorem Map.get_set_self {β : Type} (m : Map β) (k : String) (v : β) :
    Map.get (Map.set m k v) k = some v := by
  induction m with
  | nil => simp [Map.set, Map.get]
  | cons p t ih =>
    obtain ⟨k', v'⟩ := p
    by_cases h : k' = k
    · simp [Map.set, Map.get, h]
    · simp [Map.set, Map.get, h, ih]

theorem Map.get_set_ne {β : Type} (m : Map β) (k k' : String) (v : β) (hne : k ≠ k') :
    Map.get (Map.set m k v) k' = Map.get m k' := by
  induction m with
  | nil => simp [Map.set, Map.get, hne]
  | cons p t ih =>
    obtain ⟨k₀, v₀⟩ := p
    by_cases h : k₀ = k
    · subst h
      simp [Map.set, Map.get, hne]
    · by_cases h' : k₀ = k'
      · subst h'
        simp [Map.set, Map.get, h]
      · simp [Map.set, Map.get, h, h', ih]

theorem hexDigits_length (width n : Nat) : (hexDigits width n).length = width := by
  induction width generalizing n with
  | zero => simp [hexDigits]
  | succ w ih => simp [hexDigits, ih]

theorem traceID_string_ne_empty (id : Nat) : TraceID.String id ≠ "" := by
  intro h
  have hl := congrArg String.length h
  simp [TraceID.String, String.length, hexDigits_length] at hl

theorem spanID_string_ne_empty (id : Nat) : SpanID.String id ≠ "" := by
  intro h
  have hl := congrArg String.length h
  simp [SpanID.String, String.length, hexDigits_length] at hl

/-- A span value that is recording is a span of the store that is not ended. -/
theorem SpanRef.isRecording_iff (span : SpanRef) (spans : List Span) :
    span.IsRecording spans = true ↔
      ∃ id s, span = SpanRef.recording id ∧ spans[id]? = some s ∧ s.Ended = false := by
  cases span with
  | noop => simp [SpanRef.IsRecording]
  | nonRecording sc => simp [SpanRef.IsRecording]
  | recording id =>
    cases h : spans[id]? with
    | none => simp [SpanRef.IsRecording, h]
    | some s => simp [SpanRef.IsRecording, h, Span.IsRecording]

/-- What the hook does to the entry and to the store when the entry's context
carries a recording span: the span gets the event, and, for a level at most
`ErrorLevel`, the error status, unless its status is Ok, which it keeps. -/
theorem fire_recording (entry : Entry) (spans : List Span) (ctx : Context) (id : Nat) (s : Span)
    (hctx : entry.Context = some ctx) (hspan : SpanFromContext ctx = SpanRef.recording id)
    (hs : spans[id]? = some s) (hrec : s.Ended = false) :
    (logrusTraceHook.Fire entry spans).2 =
      spans.set id
        (if entry.Level ≤ ErrorLevel then
          { s with Events := s.Events ++ [{ Name := "log", Attributes :=
                      [("log.severity", Level.String entry.Level),
                       ("log.message", entry.Message)] }],
                   Status := if s.Status.Code = Code.Ok then s.Status
                             else { Code := Code.Error, Description := entry.Message } }
         else
          { s with Events := s.Events ++ [{ Name := "log", Attributes :=
                      [("log.severity", Level.String entry.Level),
                       ("log.message", entry.Message)] }] }) := by
  have hlt : id < spans.length := by
    rcases Nat.lt_or_ge id spans.length with h | h
    · exact h
    · rw [List.getElem?_eq_none h] at hs
      cases hs
  have hc : (Code.Error.toNat < s.Status.Code.toNat) ↔ s.Status.Code = Code.Ok := by
    cases s.Status.Code <;> simp [Code.toNat]
  by_cases hl : entry.Level ≤ ErrorLevel
  · by_cases hok : s.Status.Code = Code.Ok
    · have hgt : Code.Error.toNat < s.Status.Code.toNat := hc.2 hok
      simp [logrusTraceHook.Fire, hctx, hspan, SpanRef.IsRecording, hs, Span.IsRecording, hrec,
        SpanRef.AddEvent, SpanRef.SetStatus, SpanRef.update, Span.AddEvent, Span.SetStatus, hl,
        hlt, hgt]
      split <;> split <;> simp [hl, hgt, hok]
    · have hle : ¬ (Code.Error.toNat < s.Status.Code.toNat) := fun h => hok (hc.1 h)
      simp [logrusTraceHook.Fire, hctx, hspan, SpanRef.IsRecording, hs, Span.IsRecording, hrec,
        SpanRef.AddEvent, SpanRef.SetStatus, SpanRef.update, Span.AddEvent, Span.SetStatus, hl,
        hlt, hle]
      split <;> split <;> simp [hl, hle, hok]
  · simp [logrusTraceHook.Fire, hctx, hspan, SpanRef.IsRecording, hs, Span.IsRecording, hrec,
      SpanRef.AddEvent, SpanRef.update, Span.AddEvent, hl]
    split <;> split <;> simp [hl]

/-- After the hook has fired on a record of a recording span, the span is still
recording and its status is the error status with the record's message if the
level is at most `ErrorLevel` and the status was not Ok, the status it had
otherwise. -/
theorem fire_recording_status (entry : Entry) (spans : List Span) (ctx : Context)
    (hctx : entry.Context = some ctx)
    (hrec : (SpanFromContext ctx).IsRecording spans = true) :
    (SpanFromContext ctx).IsRecording (logrusTraceHook.Fire entry spans).2 = true ∧
    (SpanFromContext ctx).Status (logrusTraceHook.Fire entry spans).2 =
      if entry.Level ≤ ErrorLevel ∧ ((SpanFromContext ctx).Status spans).Code ≠ Code.Ok then
        { Code := Code.Error, Description := entry.Message }
      else (SpanFromContext ctx).Status spans := by
  obtain ⟨id, s, hspan, hs, hended⟩ := (SpanRef.isRecording_iff _ _).1 hrec
  have hlt : id < spans.length := by
    rcases Nat.lt_or_ge id spans.length with h | h
    · exact h
    · rw [List.getElem?_eq_none h] at hs
      cases hs
  rw [fire_recording entry spans ctx id s hctx hspan hs hended, hspan]
  by_cases hl : entry.Level ≤ ErrorLevel
  · by_cases hok : s.Status.Code = Code.Ok
    · simp [SpanRef.IsRecording, SpanRef.Status, hl, hlt, Span.IsRecording, hended, hs, hok]
    · simp [SpanRef.IsRecording, SpanRef.Status, hl, hlt, Span.IsRecording, hended, hs, hok]
  · simp [SpanRef.IsRecording, SpanRef.Status, hl, hlt, Span.IsRecording, hended, hs]

theorem lastError_cons (e : Entry) (es : List Entry) :
    lastError (e :: es) =
      match lastError es with
      | some e' => some e'
      | none => if e.Level ≤ ErrorLevel then some e else none := by
  unfold lastError
  by_cases hl : e.Level ≤ ErrorLevel
  · simp only [List.filter_cons, hl, decide_True, if_true]
    cases hf : List.filter (fun e => decide (e.Level ≤ ErrorLevel)) es with
    | nil => simp
    | cons a t =>
      rw [List.getLast?_cons_cons]
      cases hgl : (a :: t).getLast? with
      | none => simp at hgl
      | some x => rfl
  · have hf : List.filter (fun e => decide (e.Level ≤ ErrorLevel)) (e :: es) =
        List.filter (fun e => decide (e.Level ≤ ErrorLevel)) es := by
      simp [List.filter_cons, hl]
    rw [hf, if_neg hl]
    generalize (List.filter (fun e => decide (e.Level ≤ ErrorLevel)) es).getLast? = o
    cases o <;> rfl

/-- On a recording span whose status is not Ok, the status after a sequence of
records is the error status of the last record at error or above. -/
theorem fireAll_status (entries : List Entry) (spans : List Span) (ctx : Context)
    (hctx : ∀ e ∈ entries, e.Context = some ctx)
    (hrec : (SpanFromContext ctx).IsRecording spans = true)
    (hok : ((SpanFromContext ctx).Status spans).Code ≠ Code.Ok) :
    (SpanFromContext ctx).Status (fireAll entries spans) =
      match lastError entries with
      | some e => { Code := Code.Error, Description := e.Message }
      | none => (SpanFromContext ctx).Status spans := by
  induction entries generalizing spans with
  | nil => simp [fireAll, lastError]
  | cons e es ih =>
    have he : e.Context = some ctx := hctx e (List.mem_cons_self _ _)
    have hes : ∀ e' ∈ es, e'.Context = some ctx := fun e' h' => hctx e' (List.mem_cons_of_mem _ h')
    obtain ⟨hrec', hst⟩ := fire_recording_status e spans ctx he hrec
    have hfold : fireAll (e :: es) spans = fireAll es (logrusTraceHook.Fire e spans).2 := by
      simp [fireAll]
    have hok' : ((SpanFromContext ctx).Status (logrusTraceHook.Fire e spans).2).Code ≠
        Code.Ok := by
      rw [hst]
      split
      · simp
      · exact hok
    rw [hfold, ih _ hes hrec' hok', lastError_cons, hst]
    cases lastError es with
    | some e' => simp
    | none =>
      by_cases hl : e.Level ≤ ErrorLevel <;> simp [hl, hok]

/-- A recording span whose status is Ok keeps it through any sequence of
records. -/
theorem fireAll_status_ok (entries : List Entry) (spans : List Span) (ctx : Context)
    (hctx : ∀ e ∈ entries, e.Context = some ctx)
    (hrec : (SpanFromContext ctx).IsRecording spans = true)
    (hok : ((SpanFromContext ctx).Status spans).Code = Code.Ok) :
    (SpanFromContext ctx).Status (fireAll entries spans) = (SpanFromContext ctx).Status spans := by
  induction entries generalizing spans with
  | nil => simp [fireAll]
  | cons e es ih =>
    have he : e.Context = some ctx := hctx e (List.mem_cons_self _ _)
    have hes : ∀ e' ∈ es, e'.Context = some ctx := fun e' h' => hctx e' (List.mem_cons_of_mem _ h')
    obtain ⟨hrec', hst⟩ := fire_recording_status e spans ctx he hrec
    have hst' : (SpanFromContext ctx).Status (logrusTraceHook.Fire e spans).2 =
        (SpanFromContext ctx).Status spans := by
      rw [hst]
      simp [hok]
    have hfold : fireAll (e :: es) spans = fireAll es (logrusTraceHook.Fire e spans).2 := by
      simp [fireAll]
    rw [hfold, ih _ hes hrec' (by rw [hst']; exact hok), hst']

/-- C4 (as stated, refuted): a recording span whose status is Ok keeps that
status when `Fire` runs on a record at error level; `SetStatus` does not lower a
status. -/
theorem fire_ok_status_counterexample :
    ¬ (∀ (entry : Entry) (spans : List Span) (ctx : Context),
        entry.Context = some ctx → (SpanFromContext ctx).IsRecording spans = true →
        entry.Level = ErrorLevel →
        (SpanFromContext ctx).Status (logrusTraceHook.Fire entry spans).2 =
          { Code := Code.Error, Description := entry.Message }) := by
  intro hall
  have h := hall (sampleEntry ErrorLevel "failed")
    [{ sampleSpan { TraceID := 7, SpanID := 9, TraceFlags := 1, TraceState := "",
                    Remote := false } with Status := { Code := Code.Ok, Description := "" } }]
    sampleContext rfl (by decide) rfl
  revert h
  decide

/-- C4 (amended): for a log record whose context carries a recording span whose
status is not Ok, `Fire` leaves the span with the status error and the record's
message as description when the record's level is panic, fatal or error, and
with the status it had for every other level (warning, info, debug, trace); so
after a sequence of records of the span, its status is the error status
described by the message of the last record at error or above (and the status
it had if there is none).  A recording span whose status is Ok keeps it,
whatever the records. -/
theorem fire_sets_error_status (spans : List Span) (ctx : Context)
    (hrec : (SpanFromContext ctx).IsRecording spans = true) :
    (((SpanFromContext ctx).Status spans).Code ≠ Code.Ok →
      (∀ entry : Entry, entry.Context = some ctx →
        ((entry.Level = PanicLevel ∨ entry.Level = FatalLevel ∨ entry.Level = ErrorLevel) →
          (SpanFromContext ctx).Status (logrusTraceHook.Fire entry spans).2 =
            { Code := Code.Error, Description := entry.Message }) ∧
        (¬ (entry.Level = PanicLevel ∨ entry.Level = FatalLevel ∨ entry.Level = ErrorLevel) →
          (SpanFromContext ctx).Status (logrusTraceHook.Fire entry spans).2 =
            (SpanFromContext ctx).Status spans)) ∧
      (∀ entries : List Entry, (∀ e ∈ entries, e.Context = some ctx) →
        (SpanFromContext ctx).Status (fireAll entries spans) =
          match lastError entries with
          | some e => { Code := Code.Error, Description := e.Message }
          | none => (SpanFromContext ctx).Status spans)) ∧
    (((SpanFromContext ctx).Status spans).Code = Code.Ok →
      ∀ entries : List Entry, (∀ e ∈ entries, e.Context = some ctx) →
        (SpanFromContext ctx).Status (fireAll entries spans) =
          (SpanFromContext ctx).Status spans) := by
  refine ⟨fun hok => ⟨?_, ?_⟩, ?_⟩
  · intro entry hctx
    have hlevels : (entry.Level = PanicLevel ∨ entry.Level = FatalLevel ∨
        entry.Level = ErrorLevel) ↔ entry.Level ≤ ErrorLevel := by
      simp only [PanicLevel, FatalLevel, ErrorLevel]
      omega
    have hst := (fire_recording_status entry spans ctx hctx hrec).2
    constructor
    · intro h
      rw [hst, if_pos ⟨hlevels.1 h, hok⟩]
    · intro h
      rw [hst, if_neg (fun hl => h (hlevels.2 hl.1))]
  · intro entries hctx
    exact fireAll_status entries spans ctx hctx hrec hok
  · intro hok entries hctx
    exact fireAll_status_ok entries spans ctx hctx hrec hok

theorem fire_sets_error_status_witness :
    (SpanFromContext sampleContext).Status
        (fireAll [sampleEntry InfoLevel "start", sampleEntry ErrorLevel "failed",
            sampleEntry FatalLevel "gave up", sampleEntry WarnLevel "late"]
          [sampleSpan { TraceID := 7, SpanID := 9, TraceFlags := 1, TraceState := "",
                        Remote := false }]) =
      { Code := Code.Error, Description := "gave up" } := by
  have h := ((fire_sets_error_status
    [sampleSpan { TraceID := 7, SpanID := 9, TraceFlags := 1, TraceState := "", Remote := false }]
    sampleContext (by decide)).1 (by decide)).2
    [sampleEntry InfoLevel "start", sampleEntry ErrorLevel "failed",
      sampleEntry FatalLevel "gave up", sampleEntry WarnLevel "late"] (by decide)
  rw [h]
  decide

/-- What the hook does to the fields of a record whose context carries a
recording span. -/
theorem fire_recording_data (entry : Entry) (spans : List Span) (ctx : Context)
    (hctx : entry.Context = some ctx)
    (hrec : (SpanFromContext ctx).IsRecording spans = true) :
    (logrusTraceHook.Fire entry spans).1.Data =
      (fun d : Fields =>
        if ((SpanFromContext ctx).SpanContext spans).HasSpanID = true then
          Map.set d "spanid"
            (Value.str (SpanID.String ((SpanFromContext ctx).SpanContext spans).SpanID))
        else d)
      (if ((SpanFromContext ctx).SpanContext spans).HasTraceID = true then
        Map.set entry.Data "traceid"
          (Value.str (TraceID.String ((SpanFromContext ctx).SpanContext spans).TraceID))
       else entry.Data) := by
  by_cases ht : ((SpanFromContext ctx).SpanContext spans).HasTraceID = true <;>
    by_cases hs : ((SpanFromContext ctx).SpanContext spans).HasSpanID = true <;>
    simp [logrusTraceHook.Fire, hctx, hrec, ht, hs]

/-- C5 (as stated, refuted): a recording span whose span context has no trace
id and no span id leaves the record without "traceid" and "spanid" fields. -/
theorem fire_unset_ids_counterexample :
    ¬ (∀ (entry : Entry) (spans : List Span) (ctx : Context),
        entry.Context = some ctx → (SpanFromContext ctx).IsRecording spans = true →
        Map.get (logrusTraceHook.Fire entry spans).1.Data "traceid" =
            some (Value.str (TraceID.String ((SpanFromContext ctx).SpanContext spans).TraceID)) ∧
        Map.get (logrusTraceHook.Fire entry spans).1.Data "spanid" =
            some (Value.str (SpanID.String ((SpanFromContext ctx).SpanContext spans).SpanID))) := by
  intro hall
  have h := hall (sampleEntry InfoLevel "start") [sampleSpan SpanContext.empty] sampleContext
    rfl (by decide)
  revert h
  decide

/-- C5 (amended): for a log record whose context carries a recording span,
after `Fire` the record's fields hold under "traceid" the string form of the
span's trace id, which is not empty, if the trace id is set, and under "spanid"
the string form of the span's span id, which is not empty, if the span id is
set; an id that is not set leaves the field of its name as it was. -/
theorem fire_sets_ids (entry : Entry) (spans : List Span) (ctx : Context)
    (hctx : entry.Context = some ctx)
    (hrec : (SpanFromContext ctx).IsRecording spans = true) :
    (((SpanFromContext ctx).SpanContext spans).HasTraceID = true →
      Map.get (logrusTraceHook.Fire entry spans).1.Data "traceid" =
          some (Value.str (TraceID.String ((SpanFromContext ctx).SpanContext spans).TraceID)) ∧
        TraceID.String ((SpanFromContext ctx).SpanContext spans).TraceID ≠ "") ∧
    (((SpanFromContext ctx).SpanContext spans).HasSpanID = true →
      Map.get (logrusTraceHook.Fire entry spans).1.Data "spanid" =
          some (Value.str (SpanID.String ((SpanFromContext ctx).SpanContext spans).SpanID)) ∧
        SpanID.String ((SpanFromContext ctx).SpanContext spans).SpanID ≠ "") ∧
    (((SpanFromContext ctx).SpanContext spans).HasTraceID = false →
      Map.get (logrusTraceHook.Fire entry spans).1.Data "traceid" =
        Map.get entry.Data "traceid") ∧
    (((SpanFromContext ctx).SpanContext spans).HasSpanID = false →
      Map.get (logrusTraceHook.Fire entry spans).1.Data "spanid" =
        Map.get entry.Data "spanid") := by
  rw [fire_recording_data entry spans ctx hctx hrec]
  have hne : ("spanid" : String) ≠ "traceid" := by decide
  have hne' : ("traceid" : String) ≠ "spanid" := by decide
  refine ⟨?_, ?_, ?_, ?_⟩
  · intro ht
    refine ⟨?_, traceID_string_ne_empty _⟩
    by_cases hs : ((SpanFromContext ctx).SpanContext spans).HasSpanID = true
    · simp [ht, hs, Map.get_set_self, Map.get_set_ne _ _ _ _ hne]
    · simp [ht, hs, Map.get_set_self]
  · intro hs
    refine ⟨?_, spanID_string_ne_empty _⟩
    simp [hs, Map.get_set_self]
  · intro ht
    by_cases hs : ((SpanFromContext ctx).SpanContext spans).HasSpanID = true
    · simp [ht, hs, Map.get_set_ne _ _ _ _ hne]
    · simp [ht, hs]
  · intro hs
    by_cases ht : ((SpanFromContext ctx).SpanContext spans).HasTraceID = true
    · simp [ht, hs, Map.get_set_ne _ _ _ _ hne']
    · simp [ht, hs]

theorem fire_sets_ids_witness :
    Map.get (logrusTraceHook.Fire (sampleEntry InfoLevel "start")
        [sampleSpan { TraceID := 255, SpanID := 16, TraceFlags := 1, TraceState := "",
                      Remote := false }]).1.Data "traceid" =
      some (Value.str "000000000000000000000000000000ff") ∧
    Map.get (logrusTraceHook.Fire (sampleEntry InfoLevel "start")
        [sampleSpan { TraceID := 255, SpanID := 16, TraceFlags := 1, TraceState := "",
                      Remote := false }]).1.Data "spanid" =
      some (Value.str "0000000000000010") := by
  have h := fire_sets_ids (sampleEntry InfoLevel "start")
    [sampleSpan { TraceID := 255, SpanID := 16, TraceFlags := 1, TraceState := "",
                  Remote := false }] sampleContext rfl (by decide)
  refine ⟨?_, ?_⟩
  · rw [(h.1 (by decide)).1]
    decide
  · rw [(h.2.1 (by decide)).1]
    decide

/-! ## The logger, the tracer and the events -/

/-- The hook leaves alone a record without context or whose span is not
recording. -/
theorem fire_not_recording (entry : Entry) (spans : List Span)
    (h : ∀ ctx, entry.Context = some ctx → (SpanFromContext ctx).IsRecording spans = false) :
    logrusTraceHook.Fire entry spans = (entry, spans) := by
  cases hctx : entry.Context with
  | none => simp [logrusTraceHook.Fire, hctx]
  | some ctx => simp [logrusTraceHook.Fire, hctx, h ctx hctx]

@[simp]
theorem fire_fst_level (entry : Entry) (spans : List Span) :
    (logrusTraceHook.Fire entry spans).1.Level = entry.Level := by
  cases hctx : entry.Context with
  | none => simp [logrusTraceHook.Fire, hctx]
  | some ctx =>
    by_cases hrec : (SpanFromContext ctx).IsRecording spans = true
    · by_cases ht : ((SpanFromContext ctx).SpanContext spans).HasTraceID = true <;>
        by_cases hs : ((SpanFromContext ctx).SpanContext spans).HasSpanID = true <;>
        simp [logrusTraceHook.Fire, hctx, hrec, ht, hs]
    · simp [logrusTraceHook.Fire, hctx, hrec]

@[simp]
theorem fire_fst_message (entry : Entry) (spans : List Span) :
    (logrusTraceHook.Fire entry spans).1.Message = entry.Message := by
  cases hctx : entry.Context with
  | none => simp [logrusTraceHook.Fire, hctx]
  | some ctx =>
    by_cases hrec : (SpanFromContext ctx).IsRecording spans = true
    · by_cases ht : ((SpanFromContext ctx).SpanContext spans).HasTraceID = true <;>
        by_cases hs : ((SpanFromContext ctx).SpanContext spans).HasSpanID = true <;>
        simp [logrusTraceHook.Fire, hctx, hrec, ht, hs]
    · simp [logrusTraceHook.Fire, hctx, hrec]

theorem fire_fst_get (entry : Entry) (spans : List Span) (k : String)
    (h₁ : k ≠ "traceid") (h₂ : k ≠ "spanid") :
    Map.get (logrusTraceHook.Fire entry spans).1.Data k = Map.get entry.Data k := by
  cases hctx : entry.Context with
  | none => simp [logrusTraceHook.Fire, hctx]
  | some ctx =>
    by_cases hrec : (SpanFromContext ctx).IsRecording spans = true
    · by_cases ht : ((SpanFromContext ctx).SpanContext spans).HasTraceID = true <;>
        by_cases hs : ((SpanFromContext ctx).SpanContext spans).HasSpanID = true <;>
        simp [logrusTraceHook.Fire, hctx, hrec, ht, hs,
          Map.get_set_ne _ _ _ _ (Ne.symm h₁), Map.get_set_ne _ _ _ _ (Ne.symm h₂)]
    · simp [logrusTraceHook.Fire, hctx, hrec]

/-- The hook changes the events and the status of at most one span of the
store, nothing else. -/
theorem fire_frame (entry : Entry) (spans : List Span) :
    (logrusTraceHook.Fire entry spans).2.length = spans.length ∧
    ∀ (i : Nat) (s : Span), spans[i]? = some s →
      ∃ s', (logrusTraceHook.Fire entry spans).2[i]? = some s' ∧
        s'.Name = s.Name ∧ s'.SpanKind = s.SpanKind ∧ s'.Parent = s.Parent ∧
        s'.SpanContext = s.SpanContext ∧ s'.Attributes = s.Attributes ∧ s'.Ended = s.Ended := by
  by_cases h : ∀ ctx, entry.Context = some ctx → (SpanFromContext ctx).IsRecording spans = false
  · rw [fire_not_recording entry spans h]
    exact ⟨rfl, fun i s hs => ⟨s, hs, rfl, rfl, rfl, rfl, rfl, rfl⟩⟩
  · simp only [not_forall, Bool.not_eq_false] at h
    obtain ⟨ctx, hctx, hrec⟩ := h
    obtain ⟨id, s₀, hspan, hs₀, hended⟩ := (SpanRef.isRecording_iff _ _).1 hrec
    rw [fire_recording entry spans ctx id s₀ hctx hspan hs₀ hended]
    refine ⟨by simp, ?_⟩
    intro i s hs
    by_cases hi : id = i
    · subst hi
      have hlt : id < spans.length := by
        rcases Nat.lt_or_ge id spans.length with h | h
        · exact h
        · rw [List.getElem?_eq_none h] at hs
          cases hs
      rw [hs₀] at hs
      cases hs
      rw [List.getElem?_set_self hlt]
      by_cases hl : entry.Level ≤ ErrorLevel <;> simp [hl]
    · rw [List.getElem?_set_ne hi]
      exact ⟨s, hs, rfl, rfl, rfl, rfl, rfl, rfl⟩

@[simp]
theorem fire_spans_length (entry : Entry) (spans : List Span) :
    (logrusTraceHook.Fire entry spans).2.length = spans.length :=
  (fire_frame entry spans).1

@[simp]
theorem log_spans_length (entry : Entry) (level : Nat) (message : String) (w : World) :
    (entry.Log level message w).spans.length = w.spans.length := by
  unfold Entry.Log
  split <;> simp

@[simp]
theorem info_spans_length (entry : Entry) (message : String) (w : World) :
    (entry.Info message w).spans.length = w.spans.length := by
  simp [Entry.Info]

@[simp]
theorem error_spans_length (entry : Entry) (message : String) (w : World) :
    (entry.Error message w).spans.length = w.spans.length := by
  simp [Entry.Error]

@[simp]
theorem info_events (entry : Entry) (message : String) (w : World) :
    (entry.Info message w).events =
      w.events ++ [Event.log (logrusTraceHook.Fire
        { entry with Level := InfoLevel, Message := message } w.spans).1] := by
  simp [Entry.Info, Entry.Log, IsLevelEnabled, loggerLevel, InfoLevel, DebugLevel]

@[simp]
theorem error_events (entry : Entry) (message : String) (w : World) :
    (entry.Error message w).events =
      w.events ++ [Event.log (logrusTraceHook.Fire
        { entry with Level := ErrorLevel, Message := message } w.spans).1] := by
  simp [Entry.Error, Entry.Log, IsLevelEnabled, loggerLevel, ErrorLevel, DebugLevel]

@[simp]
theorem start_events (env : Env) (ctx : Context) (name : String)
    (config : SpanStartConfig) (w : World) :
    (Tracer.Start env ctx name config w).2.events =
      w.events ++ [Event.spanStart w.spans.length] := by
  simp [Tracer.Start]

@[simp]
theorem start_spans_length (env : Env) (ctx : Context) (name : String)
    (config : SpanStartConfig) (w : World) :
    (Tracer.Start env ctx name config w).2.spans.length = w.spans.length + 1 := by
  simp [Tracer.Start]

@[simp]
theorem start_span (env : Env) (ctx : Context) (name : String)
    (config : SpanStartConfig) (w : World) :
    (Tracer.Start env ctx name config w).1.2 = SpanRef.recording w.spans.length := by
  simp [Tracer.Start]

@[simp]
theorem start_context (env : Env) (ctx : Context) (name : String)
    (config : SpanStartConfig) (w : World) :
    (Tracer.Start env ctx name config w).1.1 =
      { currentSpan := some (SpanRef.recording w.spans.length) } := by
  simp [Tracer.Start, ContextWithSpan]

@[simp]
theorem end_events (id : Nat) (w : World) :
    ((SpanRef.recording id).End w).events = w.events ++ [Event.spanEnd id] := by
  simp [SpanRef.End]

@[simp]
theorem end_spans_length (id : Nat) (w : World) :
    ((SpanRef.recording id).End w).spans.length = w.spans.length := by
  simp only [SpanRef.End, SpanRef.update]
  split <;> simp

@[simp]
theorem logged_append (a b : List Event) : logged (a ++ b) = logged a ++ logged b := by
  simp [logged]

@[simp]
theorem calls_append (a b : List Event) : calls (a ++ b) = calls a ++ calls b := by
  simp [calls]

@[simp]
theorem spansStarted_append (a b : List Event) :
    spansStarted (a ++ b) = spansStarted a ++ spansStarted b := by
  simp [spansStarted]

@[simp]
theorem spansEnded_append (a b : List Event) :
    spansEnded (a ++ b) = spansEnded a ++ spansEnded b := by
  simp [spansEnded]

@[simp]
theorem messagesLogged_append (a b : List Event) :
    messagesLogged (a ++ b) = messagesLogged a ++ messagesLogged b := by
  simp [messagesLogged]

@[simp]
theorem errorsLogged_append (a b : List Event) :
    errorsLogged (a ++ b) = errorsLogged a ++ errorsLogged b := by
  simp [errorsLogged]

@[simp]
theorem logged_nil : logged [] = [] := rfl

@[simp]
theorem logged_log (entry : Entry) (t : List Event) :
    logged (Event.log entry :: t) = entry :: logged t := rfl

@[simp]
theorem logged_spanStart (id : Nat) (t : List Event) :
    logged (Event.spanStart id :: t) = logged t := rfl

@[simp]
theorem logged_spanEnd (id : Nat) (t : List Event) :
    logged (Event.spanEnd id :: t) = logged t := rfl

@[simp]
theorem logged_call (c : RepoCall) (t : List Event) :
    logged (Event.call c :: t) = logged t := rfl

@[simp]
theorem calls_nil : calls [] = [] := rfl

@[simp]
theorem calls_log (entry : Entry) (t : List Event) :
    calls (Event.log entry :: t) = calls t := rfl

@[simp]
theorem calls_spanStart (id : Nat) (t : List Event) :
    calls (Event.spanStart id :: t) = calls t := rfl

@[simp]
theorem calls_spanEnd (id : Nat) (t : List Event) :
    calls (Event.spanEnd id :: t) = calls t := rfl

@[simp]
theorem calls_call (c : RepoCall) (t : List Event) :
    calls (Event.call c :: t) = c :: calls t := rfl

@[simp]
theorem spansStarted_nil : spansStarted [] = [] := rfl

@[simp]
theorem spansStarted_log (entry : Entry) (t : List Event) :
    spansStarted (Event.log entry :: t) = spansStarted t := rfl

@[simp]
theorem spansStarted_spanStart (id : Nat) (t : List Event) :
    spansStarted (Event.spanStart id :: t) = id :: spansStarted t := rfl

@[simp]
theorem spansStarted_spanEnd (id : Nat) (t : List Event) :
    spansStarted (Event.spanEnd id :: t) = spansStarted t := rfl

@[simp]
theorem spansStarted_call (c : RepoCall) (t : List Event) :
    spansStarted (Event.call c :: t) = spansStarted t := rfl

@[simp]
theorem spansEnded_nil : spansEnded [] = [] := rfl

@[simp]
theorem spansEnded_log (entry : Entry) (t : List Event) :
    spansEnded (Event.log entry :: t) = spansEnded t := rfl

@[simp]
theorem spansEnded_spanStart (id : Nat) (t : List Event) :
    spansEnded (Event.spanStart id :: t) = spansEnded t := rfl

@[simp]
theorem spansEnded_spanEnd (id : Nat) (t : List Event) :
    spansEnded (Event.spanEnd id :: t) = id :: spansEnded t := rfl

@[simp]
theorem spansEnded_call (c : RepoCall) (t : List Event) :
    spansEnded (Event.call c :: t) = spansEnded t := rfl

@[simp]
theorem messagesLogged_nil : messagesLogged [] = [] := rfl

@[simp]
theorem messagesLogged_log (entry : Entry) (t : List Event) :
    messagesLogged (Event.log entry :: t) = (entry.Level, entry.Message) :: messagesLogged t :=
  rfl

@[simp]
theorem messagesLogged_spanStart (id : Nat) (t : List Event) :
    messagesLogged (Event.spanStart id :: t) = messagesLogged t := rfl

@[simp]
theorem messagesLogged_spanEnd (id : Nat) (t : List Event) :
    messagesLogged (Event.spanEnd id :: t) = messagesLogged t := rfl

@[simp]
theorem messagesLogged_call (c : RepoCall) (t : List Event) :
    messagesLogged (Event.call c :: t) = messagesLogged t := rfl

@[simp]
theorem errorsLogged_nil : errorsLogged [] = [] := rfl

@[simp]
theorem errorsLogged_log (entry : Entry) (t : List Event) :
    errorsLogged (Event.log entry :: t) =
      if entry.Level ≤ ErrorLevel then entry :: errorsLogged t else errorsLogged t := by
  by_cases h : entry.Level ≤ ErrorLevel <;> simp [errorsLogged, h]

@[simp]
theorem errorsLogged_spanStart (id : Nat) (t : List Event) :
    errorsLogged (Event.spanStart id :: t) = errorsLogged t := rfl

@[simp]
theorem errorsLogged_spanEnd (id : Nat) (t : List Event) :
    errorsLogged (Event.spanEnd id :: t) = errorsLogged t := rfl

@[simp]
theorem errorsLogged_call (c : RepoCall) (t : List Event) :
    errorsLogged (Event.call c :: t) = errorsLogged t := rfl

/-! ## The operation handlers -/

/-- C7: when the body of the message does not decode into the payload of the
handler, each of `processCreateMessage`, `processListMessage` and
`processDeleteMessage` returns having entered no method of the repository,
whatever the repository is, and having written three records and nothing else:
its start record, one record at error level, "Failed to deserialize message",
and its end record. -/
theorem handlers_decode_failure (env : Env) (logger : Entry) (repository : Repository)
    (msg : Msg) (w : World) :
    (∀ err, deserializeCreateMessage env msg = .error err →
      calls (processCreateMessage env logger repository msg w).events = calls w.events ∧
      (errorsLogged (processCreateMessage env logger repository msg w).events).length =
        (errorsLogged w.events).length + 1 ∧
      messagesLogged (processCreateMessage env logger repository msg w).events =
        messagesLogged w.events ++
          [(InfoLevel, "Starting processing create record message"),
           (ErrorLevel, "Failed to deserialize message"),
           (InfoLevel, "End processing create record message")] ∧
      (processCreateMessage env logger repository msg w).events.length =
        w.events.length + 3) ∧
    (∀ err, deserializeListMessage env msg = .error err →
      calls (processListMessage env logger repository msg w).events = calls w.events ∧
      (errorsLogged (processListMessage env logger repository msg w).events).length =
        (errorsLogged w.events).length + 1 ∧
      messagesLogged (processListMessage env logger repository msg w).events =
        messagesLogged w.events ++
          [(InfoLevel, "Starting processing list records message"),
           (ErrorLevel, "Failed to deserialize message"),
           (InfoLevel, "End processing list records message")] ∧
      (processListMessage env logger repository msg w).events.length =
        w.events.length + 3) ∧
    (∀ err, deserializeDeleteMessage env msg = .error err →
      calls (processDeleteMessage env logger repository msg w).events = calls w.events ∧
      (errorsLogged (processDeleteMessage env logger repository msg w).events).length =
        (errorsLogged w.events).length + 1 ∧
      messagesLogged (processDeleteMessage env logger repository msg w).events =
        messagesLogged w.events ++
          [(InfoLevel, "Starting processing delete message"),
           (ErrorLevel, "Failed to deserialize message"),
           (InfoLevel, "End processing delete message")] ∧
      (processDeleteMessage env logger repository msg w).events.length =
        w.events.length + 3) := by
  refine ⟨?_, ?_, ?_⟩
  · intro err h
    simp [processCreateMessage, h, InfoLevel, ErrorLevel]
  · intro err h
    simp [processListMessage, h, InfoLevel, ErrorLevel]
  · intro err h
    simp [processDeleteMessage, h, InfoLevel, ErrorLevel]

/-! ## The dispatcher -/

@[simp]
theorem fire_fst_get_subject (entry : Entry) (spans : List Span) :
    Map.get (logrusTraceHook.Fire entry spans).1.Data "subject" = Map.get entry.Data "subject" :=
  fire_fst_get entry spans "subject" (by decide) (by decide)

theorem Map.get_set {β : Type} (m : Map β) (k k' : String) (v : β) :
    Map.get (Map.set m k v) k' = if k = k' then some v else Map.get m k' := by
  by_cases h : k = k'
  · subst h
    simp [Map.get_set_self]
  · simp [h, Map.get_set_ne _ _ _ _ h]

/-- The logger of a request has the subject of the message under "subject". -/
theorem requestFields_subject (entry : Entry) (newString : String) (msg : Msg) :
    Map.get (entry.WithFields (RequestFieldsToLogProvider.get newString msg)).Data "subject" =
      some (Value.str msg.Subject) := by
  rcases fields_get_eq newString msg with ⟨_, h⟩ | ⟨_, h⟩ <;>
    simp [h, Entry.WithFields, Map.get_set]

/-- The span context the dispatcher reads from a message, starting from the
background context. -/
theorem extract_background (env : Env) (msg : Msg) (spans : List Span) :
    (SpanFromContext (Extract env Context.Background (NatsHeaderCarrier msg.Header))).SpanContext
        spans =
      if (env.extract (NatsHeaderCarrier msg.Header)).IsValid then
        { env.extract (NatsHeaderCarrier msg.Header) with Remote := true }
      else SpanContext.empty := by
  by_cases h : (env.extract (NatsHeaderCarrier msg.Header)).IsValid = true
  · simp [Extract, h, ContextWithRemoteSpanContext, ContextWithSpanContext, ContextWithSpan,
      SpanFromContext, SpanRef.SpanContext]
  · simp [Extract, h, Context.Background, SpanFromContext, SpanRef.SpanContext]

/-- What acquiring the span adds to the events, for any context it starts
from: one span started, which is the span returned and the current span of the
context returned, and one record at info level. -/
theorem acquire_events (env : Env) (logger : Entry) (context : Context) (msg : Msg)
    (name : String) (w : World) :
    (getOrCreateSpanForMessageProcessing env logger context msg name w).1.2 =
      SpanRef.recording w.spans.length ∧
    (getOrCreateSpanForMessageProcessing env logger context msg name w).1.1 =
      { currentSpan := some (SpanRef.recording w.spans.length) } ∧
    (getOrCreateSpanForMessageProcessing env logger context msg name w).2.spans.length =
      w.spans.length + 1 ∧
    calls (getOrCreateSpanForMessageProcessing env logger context msg name w).2.events =
      calls w.events ∧
    errorsLogged (getOrCreateSpanForMessageProcessing env logger context msg name w).2.events =
      errorsLogged w.events ∧
    spansStarted (getOrCreateSpanForMessageProcessing env logger context msg name w).2.events =
      spansStarted w.events ++ [w.spans.length] ∧
    spansEnded (getOrCreateSpanForMessageProcessing env logger context msg name w).2.events =
      spansEnded w.events ∧
    ∃ first,
      messagesLogged (getOrCreateSpanForMessageProcessing env logger context msg name w).2.events =
        messagesLogged w.events ++ [(InfoLevel, first)] := by
  unfold getOrCreateSpanForMessageProcessing
  by_cases hv : ((SpanFromContext (Extract env context (NatsHeaderCarrier msg.Header))).SpanContext
      w.spans).IsValid = true
  · simp [hv, InfoLevel, ErrorLevel]
  · simp [hv, InfoLevel, ErrorLevel]

/-- C3 (amended): for a message whose subject is none of create, list and
delete, whatever its body, when the repository is constructed,
`messageHandler` enters no method of the repository and no operation handler
(no record of a handler is written), and writes exactly one record at error
level, "Unknown message subject. THIS SHOULD NEVER HAPPEN!", whose field
"subject" is the subject of the message. -/
theorem unknown_subject_dropped (env : Env) (n : NatsMessageProcessor) (msg : Msg) (w : World)
    (hcreate : msg.Subject ≠ "create") (hlist : msg.Subject ≠ "list")
    (hdelete : msg.Subject ≠ "delete") (hcfg : env.LoadDefaultConfig = none) :
    calls (n.messageHandler env msg w).events = calls w.events ∧
    (errorsLogged (n.messageHandler env msg w).events).map
        (fun entry => (entry.Message, Map.get entry.Data "subject")) =
      (errorsLogged w.events).map (fun entry => (entry.Message, Map.get entry.Data "subject")) ++
        [("Unknown message subject. THIS SHOULD NEVER HAPPEN!", some (Value.str msg.Subject))] ∧
    ∃ first, messagesLogged (n.messageHandler env msg w).events =
      messagesLogged w.events ++
        [(InfoLevel, first),
         (InfoLevel, "Starting processing message"),
         (InfoLevel, "Building dynamodb client"),
         (InfoLevel, "Dynamodb client build successful"),
         (ErrorLevel, "Unknown message subject. THIS SHOULD NEVER HAPPEN!"),
         (InfoLevel, "Ending processing message")] := by
  have hsub := requestFields_subject n.logger env.NewString msg
  obtain ⟨hspan, hctx, -, hcalls, herrors, -, -, first, hmsgs⟩ :=
    acquire_events env (n.logger.WithFields (RequestFieldsToLogProvider.get env.NewString msg))
      Context.Background msg "Process message" w
  simp only [NatsMessageProcessor.messageHandler]
  generalize getOrCreateSpanForMessageProcessing env
    (n.logger.WithFields (RequestFieldsToLogProvider.get env.NewString msg))
    Context.Background msg "Process message" w = acquired at *
  obtain ⟨⟨ctx, span⟩, w₁⟩ := acquired
  simp only at hspan hctx hcalls herrors hmsgs
  subst hspan hctx
  refine ⟨?_, ?_, first, ?_⟩
  · simp [messageHandler.body, NewDynamoDbRepository, hcfg, hcreate, hlist, hdelete,
      createSubject, listSubject, deleteSubject, hcalls]
  · simp [messageHandler.body, NewDynamoDbRepository, hcfg, hcreate, hlist, hdelete,
      createSubject, listSubject, deleteSubject, herrors, InfoLevel, ErrorLevel]
    simp [Entry.WithFields, Entry.WithContext, Map.get_set]
    simpa [Entry.WithFields] using hsub
  · simp [messageHandler.body, NewDynamoDbRepository, hcfg, hcreate, hlist, hdelete,
      createSubject, listSubject, deleteSubject, hmsgs, InfoLevel, ErrorLevel]

theorem unknown_subject_dropped_witness :
    (errorsLogged (sampleProcessor.messageHandler sampleEnv ⟨"bogus", "anything", none⟩
        emptyWorld).events).map (fun entry => (entry.Message, Map.get entry.Data "subject")) =
      [("Unknown message subject. THIS SHOULD NEVER HAPPEN!", some (Value.str "bogus"))] := by
  have h := (unknown_subject_dropped sampleEnv sampleProcessor ⟨"bogus", "anything", none⟩
    emptyWorld (by decide) (by decide) (by decide) rfl).2.1
  simpa [emptyWorld] using h

/-- C3 (as stated, refuted): when loading the configuration fails,
`messageHandler` returns before the switch on the subject, and a message with an
unknown subject leaves two records at error level, "failed to AWS load config"
and "Failed to create repository", not one. -/
theorem unknown_subject_counterexample :
    ¬ (∀ (env : Env) (n : NatsMessageProcessor) (msg : Msg),
        msg.Subject ≠ "create" → msg.Subject ≠ "list" → msg.Subject ≠ "delete" →
        (errorsLogged (n.messageHandler env msg emptyWorld).events).length = 1) := by
  intro hall
  have h := hall failingEnv sampleProcessor ⟨"bogus", "anything", none⟩
    (by decide) (by decide) (by decide)
  revert h
  decide

/-- The records written for an unknown subject when loading the configuration
fails. -/
theorem unknown_subject_config_failure_messages :
    messagesLogged (sampleProcessor.messageHandler failingEnv ⟨"bogus", "anything", none⟩
        emptyWorld).events =
      [(InfoLevel, "Trace not found, generating new one."),
       (InfoLevel, "Starting processing message"),
       (InfoLevel, "Building dynamodb client"),
       (ErrorLevel, "failed to AWS load config"),
       (ErrorLevel, "Failed to create repository"),
       (InfoLevel, "Ending processing message")] := by
  decide

/-! ## The repository -/

@[simp]
theorem aSubTaskFinal_calls (env : Env) (d : DynamoDbRepository) (tctx : Context)
    (taskName : String) (w : World) :
    calls (d.aSubTaskFinal env tctx taskName w).events = calls w.events := by
  simp [DynamoDbRepository.aSubTaskFinal]

@[simp]
theorem aSubTask_calls (env : Env) (d : DynamoDbRepository) (tctx : Context)
    (taskName : String) (final : Bool) (w : World) :
    calls (d.aSubTask env tctx taskName final w).events = calls w.events := by
  cases final <;> simp [DynamoDbRepository.aSubTask]

@[simp]
theorem fetchPages_calls (logger : Entry) (pages : List (Option String)) (w : World) :
    calls (DynamoDbRepository.fetchPages logger pages w).2.events = calls w.events := by
  induction pages generalizing w with
  | nil => simp [DynamoDbRepository.fetchPages]
  | cons page rest ih =>
    cases page with
    | none => simp [DynamoDbRepository.fetchPages, ih]
    | some err => simp [DynamoDbRepository.fetchPages]

/-- Method `Create` is entered once and enters no other method. -/
theorem create_calls (env : Env) (d : DynamoDbRepository) (key info : String) (w : World) :
    calls (d.Create env key info w).2.events = calls w.events ++ [RepoCall.Create key info] := by
  unfold DynamoDbRepository.Create
  cases env.PutItem d.tableName key info <;> simp

/-- Method `List` is entered once and enters no other method. -/
theorem list_calls (env : Env) (d : DynamoDbRepository) (key : String) (w : World) :
    calls (d.List env key w).2.events = calls w.events ++ [RepoCall.List key] := by
  unfold DynamoDbRepository.List
  cases env.Build key with
  | some err => simp
  | none =>
    simp only
    split <;> simp

/-- Method `Delete` is entered once and enters no other method. -/
theorem delete_calls (env : Env) (d : DynamoDbRepository) (key : String) (w : World) :
    calls (d.Delete env key w).2.events = calls w.events ++ [RepoCall.Delete key] := by
  unfold DynamoDbRepository.Delete
  cases env.DeleteItem d.tableName key <;> simp

/-- C2: for a message whose subject is create, list or delete, whose body
decodes, and for which the repository is constructed, `messageHandler` enters
exactly one method of the repository, once: `Create` with the key and the info
decoded for create, `List` with the key decoded for list, `Delete` with the key
decoded for delete. -/
theorem dispatch_invokes_one_operation (env : Env) (n : NatsMessageProcessor) (msg : Msg)
    (w : World) (hcfg : env.LoadDefaultConfig = none) :
    (∀ m, msg.Subject = "create" → deserializeCreateMessage env msg = .ok m →
      calls (n.messageHandler env msg w).events =
        calls w.events ++ [RepoCall.Create m.Key m.Info]) ∧
    (∀ m, msg.Subject = "list" → deserializeListMessage env msg = .ok m →
      calls (n.messageHandler env msg w).events = calls w.events ++ [RepoCall.List m.Key]) ∧
    (∀ m, msg.Subject = "delete" → deserializeDeleteMessage env msg = .ok m →
      calls (n.messageHandler env msg w).events = calls w.events ++ [RepoCall.Delete m.Key]) := by
  obtain ⟨hspan, hctx, -, hcalls, -, -, -, -⟩ :=
    acquire_events env (n.logger.WithFields (RequestFieldsToLogProvider.get env.NewString msg))
      Context.Background msg "Process message" w
  simp only [NatsMessageProcessor.messageHandler]
  generalize getOrCreateSpanForMessageProcessing env
    (n.logger.WithFields (RequestFieldsToLogProvider.get env.NewString msg))
    Context.Background msg "Process message" w = acquired at *
  obtain ⟨⟨ctx, span⟩, w₁⟩ := acquired
  simp only at hspan hctx hcalls
  subst hspan hctx
  refine ⟨?_, ?_, ?_⟩
  · intro m hs hm
    simp only [messageHandler.body, NewDynamoDbRepository, hcfg, hs, createSubject,
      processCreateMessage, hm, DynamoDbRepository.toRepository, if_true]
    split <;> simp [create_calls, hcalls]
  · intro m hs hm
    simp only [messageHandler.body, NewDynamoDbRepository, hcfg, hs, createSubject, listSubject,
      processListMessage, hm, DynamoDbRepository.toRepository, if_true]
    simp only [show ¬ ("list" = "create") by decide, if_false]
    split <;> simp [list_calls, hcalls]
  · intro m hs hm
    simp only [messageHandler.body, NewDynamoDbRepository, hcfg, hs, createSubject, listSubject,
      deleteSubject, processDeleteMessage, hm, DynamoDbRepository.toRepository, if_true]
    simp only [show ¬ ("delete" = "create") by decide, show ¬ ("delete" = "list") by decide,
      if_false, if_true]
    split <;> simp [delete_calls, hcalls]

theorem dispatch_invokes_one_operation_witness :
    calls (sampleProcessor.messageHandler sampleEnv
        ⟨"create", "\x7b\"key\":\"a\",\"info\":\"x\"\x7d", none⟩ emptyWorld).events =
      [RepoCall.Create "a" "x"] := by
  have h := (dispatch_invokes_one_operation sampleEnv sampleProcessor
    ⟨"create", "\x7b\"key\":\"a\",\"info\":\"x\"\x7d", none⟩ emptyWorld rfl).1
    { Key := "a", Info := "x" } rfl rfl
  simpa [emptyWorld] using h

/-! ## Acquiring the span -/

theorem info_spans (entry : Entry) (message : String) (w : World) :
    (entry.Info message w).spans =
      (logrusTraceHook.Fire { entry with Level := InfoLevel, Message := message } w.spans).2 := by
  simp [Entry.Info, Entry.Log, IsLevelEnabled, loggerLevel, InfoLevel, DebugLevel]

/-- C1: for every message, `getOrCreateSpanForMessageProcessing` starts exactly
one span, of kind consumer, and returns it together with a context whose current
span it is.  When the span context extracted from the carrier of the message is
valid, the span has it as parent and has its trace id; when it is not, the span
has no parent and a newly generated trace id.  From the background context, the
one `messageHandler` passes, the extracted span context is the one the
propagator reads in the carrier, marked remote, if that one is valid, and the
empty span context otherwise. -/
theorem acquire_span (env : Env) (logger : Entry) (context : Context) (msg : Msg)
    (name : String) (w : World) :
    spansStarted (getOrCreateSpanForMessageProcessing env logger context msg name w).2.events =
      spansStarted w.events ++ [w.spans.length] ∧
    (getOrCreateSpanForMessageProcessing env logger context msg name w).2.spans.length =
      w.spans.length + 1 ∧
    (getOrCreateSpanForMessageProcessing env logger context msg name w).1.2 =
      SpanRef.recording w.spans.length ∧
    SpanFromContext (getOrCreateSpanForMessageProcessing env logger context msg name w).1.1 =
      SpanRef.recording w.spans.length ∧
    (∃ s, (getOrCreateSpanForMessageProcessing env logger context msg name w).2.spans[
          w.spans.length]? = some s ∧
      s.SpanKind = SpanKind.Consumer ∧ s.Name = name ∧ s.Ended = false ∧
      (((SpanFromContext (Extract env context (NatsHeaderCarrier msg.Header))).SpanContext
          w.spans).IsValid = true →
        s.Parent = (SpanFromContext (Extract env context (NatsHeaderCarrier msg.Header))).SpanContext
            w.spans ∧
        s.SpanContext.TraceID =
          ((SpanFromContext (Extract env context (NatsHeaderCarrier msg.Header))).SpanContext
            w.spans).TraceID) ∧
      (((SpanFromContext (Extract env context (NatsHeaderCarrier msg.Header))).SpanContext
          w.spans).IsValid = false →
        s.Parent = SpanContext.empty ∧
        s.SpanContext.TraceID = (env.NewIDs w.spans.length).1)) ∧
    (SpanFromContext (Extract env Context.Background (NatsHeaderCarrier msg.Header))).SpanContext
        w.spans =
      if (env.extract (NatsHeaderCarrier msg.Header)).IsValid then
        { env.extract (NatsHeaderCarrier msg.Header) with Remote := true }
      else SpanContext.empty := by
  obtain ⟨hspan, hctx, hlen, -, -, hstarted, -, -⟩ :=
    acquire_events env logger context msg name w
  refine ⟨hstarted, hlen, hspan, by rw [hctx]; rfl, ?_, extract_background env msg w.spans⟩
  unfold getOrCreateSpanForMessageProcessing
  by_cases hv : ((SpanFromContext (Extract env context (NatsHeaderCarrier msg.Header))).SpanContext
      w.spans).IsValid = true
  · have hid : ((SpanFromContext (Extract env context (NatsHeaderCarrier msg.Header))).SpanContext
        w.spans).HasTraceID = true := by
      simp only [SpanContext.IsValid, Bool.and_eq_true] at hv
      exact hv.1
    simp only [hv, Bool.not_true, Bool.false_eq_true, if_false, info_spans]
    obtain ⟨-, hframe⟩ := fire_frame
      { Data := (logger.WithContext context).Data, Context := (logger.WithContext context).Context,
        Level := InfoLevel,
        Message := "Trace found with value: " ++ TraceID.String
          (((Tracer.Start env (Extract env context (NatsHeaderCarrier msg.Header)) name
            { SpanKind := SpanKind.Consumer } w).1.2).SpanContext
            (Tracer.Start env (Extract env context (NatsHeaderCarrier msg.Header)) name
              { SpanKind := SpanKind.Consumer } w).2.spans).TraceID ++ ". reusing it" }
      (Tracer.Start env (Extract env context (NatsHeaderCarrier msg.Header)) name
        { SpanKind := SpanKind.Consumer } w).2.spans
    obtain ⟨s', hs', hname, hkind, hparent, hsc, -, hended⟩ := hframe w.spans.length _
      (by simp only [Tracer.Start]; exact List.getElem?_concat_length _ _)
    refine ⟨s', hs', ?_, ?_, ?_, ?_, ?_⟩
    · rw [hkind]; rfl
    · rw [hname]
    · rw [hended]
    · intro _
      rw [hparent, hsc]
      simp [SpanContextFromContext, hid]
    · intro hf
      cases hf
  · simp only [hv, Bool.not_false, if_true]
    simp only [Bool.not_eq_true] at hv
    refine ⟨_, by simp only [Tracer.Start]; exact (by
      rw [← log_spans_length (logger.WithContext context) InfoLevel
        "Trace not found, generating new one." w]
      exact List.getElem?_concat_length _ _), rfl, rfl, rfl, ?_, ?_⟩
    · intro ht
      cases ht
    · intro _
      simp [SpanContext.empty, SpanContext.HasTraceID]

/-! ## Closing the span -/

@[simp]
theorem aSubTaskFinal_ended (env : Env) (d : DynamoDbRepository) (tctx : Context)
    (taskName : String) (w : World) :
    spansEnded (d.aSubTaskFinal env tctx taskName w).events =
      spansEnded w.events ++ [w.spans.length] := by
  simp [DynamoDbRepository.aSubTaskFinal]

@[simp]
theorem aSubTaskFinal_length (env : Env) (d : DynamoDbRepository) (tctx : Context)
    (taskName : String) (w : World) :
    (d.aSubTaskFinal env tctx taskName w).spans.length = w.spans.length + 1 := by
  simp [DynamoDbRepository.aSubTaskFinal]

@[simp]
theorem aSubTask_ended (env : Env) (d : DynamoDbRepository) (tctx : Context)
    (taskName : String) (w : World) :
    spansEnded (d.aSubTask env tctx taskName false w).events =
      spansEnded w.events ++ [w.spans.length + 1, w.spans.length] := by
  simp [DynamoDbRepository.aSubTask]

@[simp]
theorem fetchPages_ended (logger : Entry) (pages : List (Option String)) (w : World) :
    spansEnded (DynamoDbRepository.fetchPages logger pages w).2.events = spansEnded w.events := by
  induction pages generalizing w with
  | nil => simp [DynamoDbRepository.fetchPages]
  | cons page rest ih =>
    cases page with
    | none => simp [DynamoDbRepository.fetchPages, ih]
    | some err => simp [DynamoDbRepository.fetchPages]

@[simp]
theorem fetchPages_length (logger : Entry) (pages : List (Option String)) (w : World) :
    (DynamoDbRepository.fetchPages logger pages w).2.spans.length = w.spans.length := by
  induction pages generalizing w with
  | nil => simp [DynamoDbRepository.fetchPages]
  | cons page rest ih =>
    cases page with
    | none => simp [DynamoDbRepository.fetchPages, ih]
    | some err => simp [DynamoDbRepository.fetchPages]

theorem create_endsFrom (env : Env) (d : DynamoDbRepository) (key info : String) (w : World) :
    EndsFrom w.spans.length w (d.Create env key info w).2 := by
  unfold DynamoDbRepository.Create EndsFrom
  cases env.PutItem d.tableName key info with
  | some err => exact ⟨[w.spans.length], by simp, by simp⟩
  | none =>
    exact ⟨[w.spans.length + 2, w.spans.length + 1, w.spans.length], by simp, by simp⟩

theorem list_endsFrom (env : Env) (d : DynamoDbRepository) (key : String) (w : World) :
    EndsFrom w.spans.length w (d.List env key w).2 := by
  unfold DynamoDbRepository.List EndsFrom
  cases env.Build key with
  | some err => exact ⟨[w.spans.length], by simp, by simp⟩
  | none =>
    simp only
    split
    · exact ⟨[w.spans.length], by simp, by simp⟩
    · exact ⟨[w.spans.length + 2, w.spans.length + 1, w.spans.length], by simp, by simp⟩

theorem delete_endsFrom (env : Env) (d : DynamoDbRepository) (key : String) (w : World) :
    EndsFrom w.spans.length w (d.Delete env key w).2 := by
  unfold DynamoDbRepository.Delete EndsFrom
  cases env.DeleteItem d.tableName key with
  | some err => exact ⟨[w.spans.length], by simp, by simp⟩
  | none =>
    exact ⟨[w.spans.length + 2, w.spans.length + 1, w.spans.length], by simp, by simp⟩

theorem processCreateMessage_endsFrom (env : Env) (logger : Entry) (d : DynamoDbRepository)
    (msg : Msg) (w : World) :
    EndsFrom w.spans.length w (processCreateMessage env logger (d.toRepository env) msg w) := by
  unfold processCreateMessage
  cases deserializeCreateMessage env msg with
  | error err => exact ⟨[], by simp, by simp⟩
  | ok message =>
    obtain ⟨new, hnew, hge⟩ := create_endsFrom env d message.Key message.Info
      (logger.Info "Starting processing create record message" w)
    refine ⟨new, ?_, by simpa using hge⟩
    simp only [DynamoDbRepository.toRepository]
    split <;> simpa using hnew

theorem processListMessage_endsFrom (env : Env) (logger : Entry) (d : DynamoDbRepository)
    (msg : Msg) (w : World) :
    EndsFrom w.spans.length w (processListMessage env logger (d.toRepository env) msg w) := by
  unfold processListMessage
  cases deserializeListMessage env msg with
  | error err => exact ⟨[], by simp, by simp⟩
  | ok message =>
    obtain ⟨new, hnew, hge⟩ := list_endsFrom env d message.Key
      (logger.Info "Starting processing list records message" w)
    refine ⟨new, ?_, by simpa using hge⟩
    simp only [DynamoDbRepository.toRepository]
    split <;> simpa using hnew

theorem processDeleteMessage_endsFrom (env : Env) (logger : Entry) (d : DynamoDbRepository)
    (msg : Msg) (w : World) :
    EndsFrom w.spans.length w (processDeleteMessage env logger (d.toRepository env) msg w) := by
  unfold processDeleteMessage
  cases deserializeDeleteMessage env msg with
  | error err => exact ⟨[], by simp, by simp⟩
  | ok message =>
    obtain ⟨new, hnew, hge⟩ := delete_endsFrom env d message.Key
      (logger.Info "Starting processing delete message" w)
    refine ⟨new, ?_, by simpa using hge⟩
    simp only [DynamoDbRepository.toRepository]
    split <;> simpa using hnew

/-- Whatever path the body of `messageHandler` takes, it ends only spans started
in it. -/
theorem body_endsFrom (env : Env) (ctx : Context) (requestLogger : Entry) (debugFields : Fields)
    (msg : Msg) (w : World) :
    EndsFrom w.spans.length w (messageHandler.body env ctx requestLogger debugFields msg w) := by
  unfold messageHandler.body NewDynamoDbRepository
  cases env.LoadDefaultConfig with
  | some err => exact ⟨[], by simp, by simp⟩
  | none =>
    simp only
    split
    · obtain ⟨new, hnew, hge⟩ := processCreateMessage_endsFrom env requestLogger
        { context := ctx, logger := requestLogger.WithField "table_name" (Value.str tableName),
          tableName := tableName } msg
        ((requestLogger.WithField "table_name" (Value.str tableName)).Info
          "Dynamodb client build successful"
          ((requestLogger.WithField "table_name" (Value.str tableName)).Info
            "Building dynamodb client" w))
      exact ⟨new, by simpa using hnew, by simpa using hge⟩
    · split
      · obtain ⟨new, hnew, hge⟩ := processListMessage_endsFrom env requestLogger
          { context := ctx, logger := requestLogger.WithField "table_name" (Value.str tableName),
            tableName := tableName } msg
          ((requestLogger.WithField "table_name" (Value.str tableName)).Info
            "Dynamodb client build successful"
            ((requestLogger.WithField "table_name" (Value.str tableName)).Info
              "Building dynamodb client" w))
        exact ⟨new, by simpa using hnew, by simpa using hge⟩
      · split
        · obtain ⟨new, hnew, hge⟩ := processDeleteMessage_endsFrom env requestLogger
            { context := ctx, logger := requestLogger.WithField "table_name" (Value.str tableName),
              tableName := tableName } msg
            ((requestLogger.WithField "table_name" (Value.str tableName)).Info
              "Dynamodb client build successful"
              ((requestLogger.WithField "table_name" (Value.str tableName)).Info
                "Building dynamodb client" w))
          exact ⟨new, by simpa using hnew, by simpa using hge⟩
        · exact ⟨[], by simp, by simp⟩

theorem isOpen_lt {id : Nat} {w : World} (h : IsOpen id w) : id < w.spans.length := by
  obtain ⟨s, hs, -⟩ := h
  rcases Nat.lt_or_ge id w.spans.length with hlt | hge
  · exact hlt
  · rw [List.getElem?_eq_none hge] at hs
    cases hs

/-- Writing a record ends no span. -/
theorem isOpen_log {id : Nat} {w : World} {entry : Entry} {level : Nat} {message : String}
    (h : IsOpen id w) : IsOpen id (entry.Log level message w) := by
  unfold Entry.Log
  split
  · obtain ⟨s, hs, hended⟩ := h
    obtain ⟨s', hs', -, -, -, -, -, hended'⟩ :=
      (fire_frame { entry with Level := level, Message := message } w.spans).2 id s hs
    exact ⟨s', hs', by rw [hended', hended]⟩
  · exact h

theorem isOpen_info {id : Nat} {w : World} {entry : Entry} {message : String}
    (h : IsOpen id w) : IsOpen id (entry.Info message w) :=
  isOpen_log h

theorem isOpen_error {id : Nat} {w : World} {entry : Entry} {message : String}
    (h : IsOpen id w) : IsOpen id (entry.Error message w) :=
  isOpen_log h

/-- Starting a span ends no span. -/
theorem isOpen_start {id : Nat} {w : World} {env : Env} {ctx : Context} {name : String}
    {config : SpanStartConfig} (h : IsOpen id w) :
    IsOpen id (Tracer.Start env ctx name config w).2 := by
  obtain ⟨s, hs, hended⟩ := h
  refine ⟨s, ?_, hended⟩
  simp only [Tracer.Start]
  rw [List.getElem?_append_left (isOpen_lt ⟨s, hs, hended⟩)]
  exact hs

/-- The span just started is open. -/
theorem isOpen_started (env : Env) (ctx : Context) (name : String) (config : SpanStartConfig)
    (w : World) : IsOpen w.spans.length (Tracer.Start env ctx name config w).2 := by
  unfold IsOpen
  simp only [Tracer.Start]
  rw [List.getElem?_concat_length]
  exact ⟨_, rfl, rfl⟩

/-- Ending a span leaves every other span as it is. -/
theorem isOpen_end {id j : Nat} {w : World} (h : IsOpen id w) (hne : id ≠ j) :
    IsOpen id ((SpanRef.recording j).End w) := by
  obtain ⟨s, hs, hended⟩ := h
  refine ⟨s, ?_, hended⟩
  simp only [SpanRef.End, SpanRef.update]
  split
  · rw [List.getElem?_set_ne (Ne.symm hne)]
    exact hs
  · exact hs

/-- Entering a method of the repository changes no span. -/
theorem isOpen_call {id : Nat} {w : World} {c : RepoCall} (h : IsOpen id w) :
    IsOpen id { w with events := w.events ++ [Event.call c] } := h

theorem aSubTaskFinal_isOpen {id : Nat} {w : World} (env : Env) (d : DynamoDbRepository)
    (tctx : Context) (taskName : String) (h : IsOpen id w) :
    IsOpen id (d.aSubTaskFinal env tctx taskName w) := by
  simp only [DynamoDbRepository.aSubTaskFinal, start_span]
  exact isOpen_end (isOpen_info (isOpen_info (isOpen_start h))) (Nat.ne_of_lt (isOpen_lt h))

theorem aSubTask_isOpen {id : Nat} {w : World} (env : Env) (d : DynamoDbRepository)
    (tctx : Context) (taskName : String) (final : Bool) (h : IsOpen id w) :
    IsOpen id (d.aSubTask env tctx taskName final w) := by
  simp only [DynamoDbRepository.aSubTask, start_span]
  refine isOpen_end (isOpen_info ?_) (Nat.ne_of_lt (isOpen_lt h))
  cases final
  · exact aSubTaskFinal_isOpen env d _ _ (isOpen_info (isOpen_start h))
  · exact isOpen_info (isOpen_start h)

theorem fetchPages_isOpen {id : Nat} (logger : Entry) (pages : List (Option String))
    {w : World} (h : IsOpen id w) :
    IsOpen id (DynamoDbRepository.fetchPages logger pages w).2 := by
  induction pages generalizing w with
  | nil => exact h
  | cons page rest ih =>
    cases page with
    | none =>
      simp only [DynamoDbRepository.fetchPages]
      exact ih h
    | some err =>
      simp only [DynamoDbRepository.fetchPages]
      exact isOpen_error h

theorem create_isOpen {id : Nat} {w : World} (env : Env) (d : DynamoDbRepository)
    (key info : String) (h : IsOpen id w) : IsOpen id (d.Create env key info w).2 := by
  have hlt : id ≠ w.spans.length := Nat.ne_of_lt (isOpen_lt h)
  simp only [DynamoDbRepository.Create, start_span]
  split
  · exact isOpen_end (isOpen_error (isOpen_info (isOpen_start (isOpen_call h)))) hlt
  · exact isOpen_end (aSubTask_isOpen env d _ _ _
      (isOpen_info (isOpen_info (isOpen_start (isOpen_call h))))) hlt

theorem list_isOpen {id : Nat} {w : World} (env : Env) (d : DynamoDbRepository)
    (key : String) (h : IsOpen id w) : IsOpen id (d.List env key w).2 := by
  have hlt : id ≠ w.spans.length := Nat.ne_of_lt (isOpen_lt h)
  simp only [DynamoDbRepository.List, start_span]
  split
  · exact isOpen_end (isOpen_error (isOpen_info (isOpen_start (isOpen_call h)))) hlt
  · split
    · exact isOpen_end (fetchPages_isOpen _ _
        (isOpen_info (isOpen_info (isOpen_start (isOpen_call h))))) hlt
    · exact isOpen_end (aSubTask_isOpen env d _ _ _ (isOpen_info (fetchPages_isOpen _ _
        (isOpen_info (isOpen_info (isOpen_start (isOpen_call h))))))) hlt

theorem delete_isOpen {id : Nat} {w : World} (env : Env) (d : DynamoDbRepository)
    (key : String) (h : IsOpen id w) : IsOpen id (d.Delete env key w).2 := by
  have hlt : id ≠ w.spans.length := Nat.ne_of_lt (isOpen_lt h)
  simp only [DynamoDbRepository.Delete, start_span]
  split
  · exact isOpen_end (isOpen_error (isOpen_info (isOpen_start (isOpen_call h)))) hlt
  · exact isOpen_end (aSubTask_isOpen env d _ _ _
      (isOpen_info (isOpen_info (isOpen_start (isOpen_call h))))) hlt

theorem processCreateMessage_isOpen {id : Nat} {w : World} (env : Env) (logger : Entry)
    (d : DynamoDbRepository) (msg : Msg) (h : IsOpen id w) :
    IsOpen id (processCreateMessage env logger (d.toRepository env) msg w) := by
  simp only [processCreateMessage, DynamoDbRepository.toRepository]
  split
  · exact isOpen_info (isOpen_error (isOpen_info h))
  · split
    · exact isOpen_info (isOpen_error (create_isOpen env d _ _ (isOpen_info h)))
    · exact isOpen_info (create_isOpen env d _ _ (isOpen_info h))

theorem processListMessage_isOpen {id : Nat} {w : World} (env : Env) (logger : Entry)
    (d : DynamoDbRepository) (msg : Msg) (h : IsOpen id w) :
    IsOpen id (processListMessage env logger (d.toRepository env) msg w) := by
  simp only [processListMessage, DynamoDbRepository.toRepository]
  split
  · exact isOpen_info (isOpen_error (isOpen_info h))
  · split
    · exact isOpen_info (isOpen_error (list_isOpen env d _ (isOpen_info h)))
    · exact isOpen_info (list_isOpen env d _ (isOpen_info h))

theorem processDeleteMessage_isOpen {id : Nat} {w : World} (env : Env) (logger : Entry)
    (d : DynamoDbRepository) (msg : Msg) (h : IsOpen id w) :
    IsOpen id (processDeleteMessage env logger (d.toRepository env) msg w) := by
  simp only [processDeleteMessage, DynamoDbRepository.toRepository]
  split
  · exact isOpen_info (isOpen_error (isOpen_info h))
  · split
    · exact isOpen_info (isOpen_error (delete_isOpen env d _ (isOpen_info h)))
    · exact isOpen_info (delete_isOpen env d _ (isOpen_info h))

/-- Whatever path the body of `messageHandler` takes, a span that is open when
it starts is open when it returns. -/
theorem body_isOpen {id : Nat} {w : World} (env : Env) (ctx : Context) (requestLogger : Entry)
    (debugFields : Fields) (msg : Msg) (h : IsOpen id w) :
    IsOpen id (messageHandler.body env ctx requestLogger debugFields msg w) := by
  simp only [messageHandler.body, NewDynamoDbRepository]
  cases env.LoadDefaultConfig with
  | some err => exact isOpen_error (isOpen_error (isOpen_info h))
  | none =>
    simp only
    split
    · exact processCreateMessage_isOpen env _ _ _ (isOpen_info (isOpen_info h))
    · split
      · exact processListMessage_isOpen env _ _ _ (isOpen_info (isOpen_info h))
      · split
        · exact processDeleteMessage_isOpen env _ _ _ (isOpen_info (isOpen_info h))
        · exact isOpen_error (isOpen_info (isOpen_info h))

/-- The span acquired for a message is open when
`getOrCreateSpanForMessageProcessing` returns. -/
theorem acquire_isOpen (env : Env) (logger : Entry) (context : Context) (msg : Msg)
    (name : String) (w : World) :
    IsOpen w.spans.length (getOrCreateSpanForMessageProcessing env logger context msg name w).2 := by
  unfold getOrCreateSpanForMessageProcessing
  by_cases hv : ((SpanFromContext (Extract env context (NatsHeaderCarrier msg.Header))).SpanContext
      w.spans).IsValid = true
  · simp only [hv, Bool.not_true, Bool.false_eq_true, if_false]
    exact isOpen_info (isOpen_started _ _ _ _ w)
  · simp only [hv, Bool.not_false, if_true]
    have h := isOpen_started env context name
      { NewRoot := true, SpanKind := SpanKind.Consumer }
      ((logger.WithContext context).Info "Trace not found, generating new one." w)
    rw [info_spans_length] at h
    exact h

/-- C6: on every path out of message processing (the repository cannot be
constructed, the subject is unknown, the body does not decode, the operation
returns an error, or all succeeds), `messageHandler` ends the processing span,
the span `getOrCreateSpanForMessageProcessing` returned, exactly once; the call
of `End` is the last thing it does, right after the record "Ending processing
message", so the span is not ended before the handler and that record: when
`messageHandler` returns, the span is ended in the store, and the last event it
recorded, while still recording, is that record. -/
theorem span_ended_once (env : Env) (n : NatsMessageProcessor) (msg : Msg) (w : World) :
    (getOrCreateSpanForMessageProcessing env
        (n.logger.WithFields (RequestFieldsToLogProvider.get env.NewString msg))
        Context.Background msg "Process message" w).1.2 = SpanRef.recording w.spans.length ∧
    timesEnded w.spans.length (n.messageHandler env msg w).events =
      timesEnded w.spans.length w.events + 1 ∧
    (n.messageHandler env msg w).events.getLast? = some (Event.spanEnd w.spans.length) ∧
    (∃ entry, (n.messageHandler env msg w).events.dropLast.getLast? = some (Event.log entry) ∧
      entry.Level = InfoLevel ∧ entry.Message = "Ending processing message") ∧
    ∃ s, (n.messageHandler env msg w).spans[w.spans.length]? = some s ∧
      s.Ended = true ∧
      s.Events.getLast? = some { Name := "log", Attributes :=
        [("log.severity", "info"), ("log.message", "Ending processing message")] } := by
  obtain ⟨hspan, hctx, hlen, -, -, -, hended, -⟩ :=
    acquire_events env (n.logger.WithFields (RequestFieldsToLogProvider.get env.NewString msg))
      Context.Background msg "Process message" w
  have hopen := acquire_isOpen env
    (n.logger.WithFields (RequestFieldsToLogProvider.get env.NewString msg))
    Context.Background msg "Process message" w
  refine ⟨hspan, ?_⟩
  simp only [NatsMessageProcessor.messageHandler]
  generalize getOrCreateSpanForMessageProcessing env
    (n.logger.WithFields (RequestFieldsToLogProvider.get env.NewString msg))
    Context.Background msg "Process message" w = acquired at *
  obtain ⟨⟨ctx, span⟩, w₁⟩ := acquired
  simp only at hspan hctx hlen hended hopen
  subst hspan hctx
  obtain ⟨new, hnew, hge⟩ := body_endsFrom env
    { currentSpan := some (SpanRef.recording w.spans.length) }
    ((n.logger.WithFields (RequestFieldsToLogProvider.get env.NewString msg)).WithContext
      { currentSpan := some (SpanRef.recording w.spans.length) })
    [("headers", Value.header msg.Header), ("data", Value.str msg.Data)] msg
    ((((n.logger.WithFields (RequestFieldsToLogProvider.get env.NewString msg)).WithContext
      { currentSpan := some (SpanRef.recording w.spans.length) }).WithFields
      [("headers", Value.header msg.Header), ("data", Value.str msg.Data)]).Info
      "Starting processing message" w₁)
  obtain ⟨s, hs, hsended⟩ := body_isOpen env
    { currentSpan := some (SpanRef.recording w.spans.length) }
    ((n.logger.WithFields (RequestFieldsToLogProvider.get env.NewString msg)).WithContext
      { currentSpan := some (SpanRef.recording w.spans.length) })
    [("headers", Value.header msg.Header), ("data", Value.str msg.Data)] msg
    (@isOpen_info w.spans.length w₁
      (((n.logger.WithFields (RequestFieldsToLogProvider.get env.NewString msg)).WithContext
        { currentSpan := some (SpanRef.recording w.spans.length) }).WithFields
        [("headers", Value.header msg.Header), ("data", Value.str msg.Data)])
      "Starting processing message" hopen)
  have hnot : w.spans.length ∉ new := by
    intro hmem
    have := hge _ hmem
    simp only [info_spans_length, hlen] at this
    omega
  refine ⟨?_, ?_, ?_, ?_⟩
  · simp only [timesEnded, end_events, info_events, spansEnded_append, hnew, spansEnded_log,
      spansEnded_spanEnd, spansEnded_nil, hended, List.count_append, List.append_nil,
      List.count_eq_zero_of_not_mem hnot]
    simp
  · simp
  · simp only [end_events, info_events, List.dropLast_concat, List.getLast?_concat]
    exact ⟨_, rfl, by simp, by simp⟩
  · have hlt := isOpen_lt ⟨s, hs, hsended⟩
    have hfire := fire_recording
      { Data := (((n.logger.WithFields (RequestFieldsToLogProvider.get env.NewString msg)).WithContext
          { currentSpan := some (SpanRef.recording w.spans.length) }).WithFields
          [("headers", Value.header msg.Header), ("data", Value.str msg.Data)]).Data,
        Context := (((n.logger.WithFields
          (RequestFieldsToLogProvider.get env.NewString msg)).WithContext
          { currentSpan := some (SpanRef.recording w.spans.length) }).WithFields
          [("headers", Value.header msg.Header), ("data", Value.str msg.Data)]).Context,
        Level := InfoLevel, Message := "Ending processing message" }
      _ { currentSpan := some (SpanRef.recording w.spans.length) } w.spans.length s rfl rfl hs
      hsended
    have hlevel : ¬ InfoLevel ≤ ErrorLevel := by decide
    simp only [hlevel, if_false] at hfire
    simp only [SpanRef.End, SpanRef.update, info_spans, hfire]
    simp [hlt, Span.End, Span.IsRecording, hsended, Level.String, InfoLevel]

theorem span_ended_once_witness :
    timesEnded 0 (sampleProcessor.messageHandler sampleEnv
        ⟨"delete", "\x7b\"key\":\"a\"\x7d", none⟩ emptyWorld).events = 1 ∧
    timesEnded 0 (sampleProcessor.messageHandler failingEnv
        ⟨"delete", "\x7b\"key\":\"a\"\x7d", none⟩ emptyWorld).events = 1 ∧
    timesEnded 0 (sampleProcessor.messageHandler sampleEnv
        ⟨"list", "not json", none⟩ emptyWorld).events = 1 ∧
    timesEnded 0 (sampleProcessor.messageHandler sampleEnv
        ⟨"bogus", "anything", none⟩ emptyWorld).events = 1 ∧
    ∃ s, (sampleProcessor.messageHandler sampleEnv
        ⟨"delete", "\x7b\"key\":\"a\"\x7d", none⟩ emptyWorld).spans[0]? = some s ∧
      s.Ended = true :=
  ⟨(span_ended_once sampleEnv sampleProcessor ⟨"delete", "\x7b\"key\":\"a\"\x7d", none⟩
      emptyWorld).2.1,
   (span_ended_once failingEnv sampleProcessor ⟨"delete", "\x7b\"key\":\"a\"\x7d", none⟩
      emptyWorld).2.1,
   (span_ended_once sampleEnv sampleProcessor ⟨"list", "not json", none⟩ emptyWorld).2.1,
   (span_ended_once sampleEnv sampleProcessor ⟨"bogus", "anything", none⟩ emptyWorld).2.1,
   (span_ended_once sampleEnv sampleProcessor ⟨"delete", "\x7b\"key\":\"a\"\x7d", none⟩
      emptyWorld).2.2.2.2.imp (fun _ h => ⟨h.1, h.2.1⟩)⟩

theorem acquire_span_witness :
    ∃ s, (getOrCreateSpanForMessageProcessing sampleEnv sampleProcessor.logger Context.Background
        ⟨"delete", "\x7b\"key\":\"a\"\x7d",
          some [("traceparent", ["00-000000000000000000000000000000ff-0000000000000010-01"])]⟩
        "Process message" emptyWorld).2.spans[0]? = some s ∧
      s.SpanKind = SpanKind.Consumer ∧ s.SpanContext.TraceID = 255 := by
  obtain ⟨s, hs, hkind, -, -, hvalid, -⟩ := (acquire_span sampleEnv sampleProcessor.logger
    Context.Background
    ⟨"delete", "\x7b\"key\":\"a\"\x7d",
      some [("traceparent", ["00-000000000000000000000000000000ff-0000000000000010-01"])]⟩
    "Process message" emptyWorld).2.2.2.2.1
  exact ⟨s, hs, hkind, (hvalid (by decide)).2⟩

theorem handlers_decode_failure_witness :
    messagesLogged (processListMessage sampleEnv sampleProcessor.logger
        (DynamoDbRepository.toRepository sampleEnv
          { context := Context.Background, logger := sampleProcessor.logger,
            tableName := tableName })
        ⟨"list", "not json", none⟩ emptyWorld).events =
      [(InfoLevel, "Starting processing list records message"),
       (ErrorLevel, "Failed to deserialize message"),
       (InfoLevel, "End processing list records message")] := by
  have h := ((handlers_decode_failure sampleEnv sampleProcessor.logger
    (DynamoDbRepository.toRepository sampleEnv
      { context := Context.Background, logger := sampleProcessor.logger,
        tableName := tableName })
    ⟨"list", "not json", none⟩ emptyWorld).2.1 "unexpected end of JSON input" rfl).2.2.1
  simpa [emptyWorld] using h

/-! ## The carrier -/

theorem Map.keys_set {β : Type} (m : Map β) (k : String) (v : β) :
    Map.keys (Map.set m k v) = if k ∈ Map.keys m then Map.keys m else Map.keys m ++ [k] := by
  induction m with
  | nil => simp [Map.set, Map.keys]
  | cons p t ih =>
    obtain ⟨k', v'⟩ := p
    by_cases h : k' = k
    · subst h
      simp [Map.set, Map.keys]
    · have h' : ¬ k = k' := fun e => h e.symm
      simp only [Map.keys] at ih
      by_cases hmem : k ∈ List.map Prod.fst t
      · simp [Map.set, Map.keys, h, h', hmem, ih]
      · simp [Map.set, Map.keys, h, h', hmem, ih]

/-- A key that is not among the keys of a map is not stored in it. -/
theorem Map.get_eq_none_of_not_mem {β : Type} (m : Map β) (k : String)
    (h : k ∉ Map.keys m) : Map.get m k = none := by
  induction m with
  | nil => rfl
  | cons p t ih =>
    obtain ⟨k', v'⟩ := p
    simp only [Map.keys, List.map_cons, List.mem_cons, not_or] at h
    have h' : ¬ k' = k := fun e => h.1 e.symm
    simp only [Map.get, h', if_false]
    exact ih h.2

/-- C11 (as stated, refuted): the carrier of a message delivered without
headers is a nil map, and `Set` on it does not store the pair: the write
panics. -/
theorem carrier_set_nil_counterexample :
    ¬ (∀ (hc : Option Header) (k v : String),
        ∃ hc', NatsHeaderCarrier.Set hc k v = .ok hc' ∧ NatsHeaderCarrier.Get (some hc') k = v) := by
  intro hall
  obtain ⟨hc', hset, -⟩ := hall (Msg.Header ⟨"create", "", none⟩) "traceparent" "x"
  simp [NatsHeaderCarrier.Set, Header.Set] at hset

/-- C11 (amended): for every carrier, `Get` of a key that is not stored returns
the empty string, also when the carrier is nil.  For every carrier backed by a
header map that is not nil, key `k` and value `v`, `Set(k, v)` returns, and
after it `Get(k)` is `v` whether or not `k` was stored before, `Get(k')` is
unchanged for every other key `k'`, and `Keys()` has `k` exactly once together
with exactly the keys stored before (a Go map stores each key once, which for
the association list is that its keys have no duplicate). -/
theorem carrier_get_set_keys (m : Header) (k v : String) :
    NatsHeaderCarrier.Get none k = "" ∧
    (Map.get m k = none → NatsHeaderCarrier.Get (some m) k = "") ∧
    ∃ hc', NatsHeaderCarrier.Set (some m) k v = .ok hc' ∧
      NatsHeaderCarrier.Get (some hc') k = v ∧
      (∀ k', k' ≠ k → NatsHeaderCarrier.Get (some hc') k' = NatsHeaderCarrier.Get (some m) k') ∧
      ((Map.keys m).Nodup →
        (NatsHeaderCarrier.Keys (some hc')).count k = 1 ∧
        (NatsHeaderCarrier.Keys (some hc')).Nodup ∧
        ∀ k', k' ∈ NatsHeaderCarrier.Keys (some hc') ↔
          k' = k ∨ k' ∈ NatsHeaderCarrier.Keys (some m)) := by
  refine ⟨rfl, ?_, Map.set m k [v], rfl, ?_, ?_, ?_⟩
  · intro h
    simp [NatsHeaderCarrier.Get, Header.Get, h]
  · simp [NatsHeaderCarrier.Get, Header.Get, Map.get_set_self]
  · intro k' hne
    simp [NatsHeaderCarrier.Get, Header.Get, Map.get_set_ne _ _ _ _ (Ne.symm hne)]
  · intro hnd
    simp only [NatsHeaderCarrier.Keys, Map.keys_set]
    by_cases hmem : k ∈ Map.keys m
    · simp only [hmem, if_true]
      refine ⟨List.count_eq_one_of_mem hnd hmem, hnd, ?_⟩
      intro k'
      constructor
      · intro h
        exact Or.inr h
      · intro h
        rcases h with h | h
        · rw [h]
          exact hmem
        · exact h
    · simp only [hmem, if_false]
      refine ⟨?_, ?_, ?_⟩
      · simp [List.count_append, List.count_eq_zero_of_not_mem hmem]
      · rw [List.nodup_append]
        refine ⟨hnd, List.nodup_singleton k, ?_⟩
        intro a ha hb
        rw [List.mem_singleton] at hb
        exact hmem (hb ▸ ha)
      · intro k'
        simp [or_comm]

theorem carrier_get_set_keys_witness :
    NatsHeaderCarrier.Get (some (Map.set [("traceparent", ["old"]), ("baggage", ["a=1"])]
        "traceparent" ["new"])) "traceparent" = "new" ∧
    (NatsHeaderCarrier.Keys (some (Map.set [("traceparent", ["old"]), ("baggage", ["a=1"])]
        "traceparent" ["new"]))).count "traceparent" = 1 := by
  obtain ⟨-, -, hc', hset, hget, -, hkeys⟩ :=
    carrier_get_set_keys [("traceparent", ["old"]), ("baggage", ["a=1"])] "traceparent" "new"
  have hc : hc' = Map.set [("traceparent", ["old"]), ("baggage", ["a=1"])]
      "traceparent" ["new"] := by
    simp only [NatsHeaderCarrier.Set, Header.Set, Except.ok.injEq] at hset
    exact hset.symm
  subst hc
  exact ⟨hget, (hkeys (by decide)).1⟩

end LogTrace
